import Mathlib

/-!
# ModeloMunicipal (src/modelo.ts)

A shallow embedding of the class `ModeloMunicipal`: the demo store `datosDemo`
(citizens, procedures, debts) and the public operations that read or mutate it.

Modelling conventions.

* The store is an explicit value `DatosDemo`; every mutating method is a function
  returning its result object together with the store it leaves behind.  A method
  body runs without suspension after its initial `await this.simularDelay()`, so a
  call is one step on the store.
* `try { ... } catch (error) { return { success: false, error: error.message } }`
  is modelled by the constructor `Resultado.fallo`; a store mutation performed
  before the `throw` stays in the returned store, as in JavaScript.
* The clock (`new Date()`, `Date.now()`) and `Math.random()` are inputs of each call.
* Identifiers are integers in the range where JavaScript addition is exact;
  `Math.max()` of no arguments is `-Infinity`.
* Amounts of money are whole numbers of céntimos.  Where the source does
  floating-point arithmetic on them (`/`, `*`, `+`, `toFixed`, `Math.floor`) the
  IEEE-754 binary64 result is computed exactly, on fractions of naturals
  (normal range, round to nearest, ties to even).
* `console.log` output is not part of the store and is not modelled.
-/

namespace ModeloMunicipal

/-! ## JavaScript numbers -/

/-- A non-negative rational `num / den`, used for the exact value of a double. -/
structure Fraccion where
  num : Nat
  den : Nat
deriving DecidableEq, Repr

/-- Fuelled binary logarithm (floor), `0` on `0` and `1`. -/
def log2Aux : Nat → Nat → Nat
  | 0, _ => 0
  | fuel + 1, n => if n < 2 then 0 else log2Aux fuel (n / 2) + 1

/-- Floor of the binary logarithm of `n`. -/
def log2 (n : Nat) : Nat := log2Aux n n

/-- The integer nearest to `a / b`, ties going to the even one. -/
def redondeoParCercano (a b : Nat) : Nat :=
  let q := a / b
  let r := a % b
  if 2 * r < b then q
  else if b < 2 * r then q + 1
  else if q % 2 = 0 then q else q + 1

/-- The binary64 exponent of `a / b`: the `e` with `2^52 ≤ (a / b) / 2^e < 2^53`. -/
def exponente (a b : Nat) : Int :=
  let e0 : Int := (log2 a : Int) - (log2 b : Int) - 52
  if a * 2 ^ (-e0).toNat < b * 2 ^ (e0.toNat + 52) then e0 - 1 else e0

/-- The double nearest to `a / b` (round to nearest, ties to even; normal range):
a 53-bit significand times a power of two. -/
def redondear (a b : Nat) : Fraccion :=
  if a = 0 ∨ b = 0 then ⟨0, 1⟩
  else
    let e := exponente a b
    let m := redondeoParCercano (a * 2 ^ (-e).toNat) (b * 2 ^ e.toNat)
    ⟨m * 2 ^ e.toNat, 2 ^ (-e).toNat⟩

/-- JavaScript `x * k` for a double `x` and a natural literal `k`. -/
def Fraccion.por (x : Fraccion) (k : Nat) : Fraccion := redondear (x.num * k) x.den

/-- JavaScript `k + x` for a natural literal `k` and a double `x`. -/
def Fraccion.masNat (k : Nat) (x : Fraccion) : Fraccion :=
  redondear (k * x.den + x.num) x.den

/-- JavaScript `x / n` for a double `x` and a positive integer `n`. -/
def Fraccion.entre (x : Fraccion) (n : Nat) : Fraccion := redondear x.num (x.den * n)

/-- JavaScript `x > y` on doubles. -/
def Fraccion.mayorQue (x y : Fraccion) : Bool := decide (y.num * x.den < x.num * y.den)

/-- JavaScript `Math.floor(x)` for a non-negative double. -/
def Fraccion.piso (x : Fraccion) : Nat := x.num / x.den

/-- JavaScript `x.toFixed(2)` for a non-negative double, as a number of hundredths:
the integer `n` with `n / 100` nearest to the exact value of `x`, the larger one on a tie. -/
def aFijo2 (x : Fraccion) : Nat := (2 * 100 * x.num + x.den) / (2 * x.den)

/-- The exact rational value of a fraction. -/
def Fraccion.valor (x : Fraccion) : ℚ := (x.num : ℚ) / (x.den : ℚ)

/-- The JavaScript number denoted by an amount of `c` céntimos (the literal `c / 100`). -/
def numeroDeCentimos (c : Nat) : Fraccion := redondear c 100

/-- A value that `Math.random()` can return: a double in `[0, 1)`, that is, a fraction
equal to `k / 2 ^ j` with `k < 2 ^ 53` and `k < 2 ^ j`. -/
def EsAleatorio (r : Fraccion) : Prop :=
  0 < r.den ∧ ∃ k j : Nat, k < 2 ^ 53 ∧ k < 2 ^ j ∧ r.num * 2 ^ j = k * r.den

/-! ## Identifiers -/

/-- An identifier: an integer, or the `-Infinity` that `Math.max()` yields on no arguments. -/
inductive Ident where
  | menosInfinito
  | entero (z : Int)
deriving DecidableEq, Repr

/-- The larger of two identifiers. -/
def Ident.max2 : Ident → Ident → Ident
  | .menosInfinito, b => b
  | a, .menosInfinito => a
  | .entero x, .entero y => .entero (if x ≤ y then y else x)

/-- JavaScript `Math.max(...xs)`. -/
def mathMax (xs : List Ident) : Ident := xs.foldr Ident.max2 .menosInfinito

/-- JavaScript `x + 1` on an identifier. -/
def Ident.mas1 : Ident → Ident
  | .menosInfinito => .menosInfinito
  | .entero z => .entero (z + 1)

/-- Strict order on identifiers, `-Infinity` below every integer. -/
def Ident.menor : Ident → Ident → Prop
  | .menosInfinito, .menosInfinito => False
  | .menosInfinito, .entero _ => True
  | .entero _, .menosInfinito => False
  | .entero x, .entero y => x < y

/-! ## Data model -/

/-- A citizen record of `datosDemo.ciudadanos`. -/
structure Ciudadano where
  id : Ident
  dni : Option String
  nombre : Option String
  email : Option String
  telefono : Option String
  direccion : Option String
  fecha_registro : Option String
deriving DecidableEq, Repr

/-- An entry of a procedure's `historial`. -/
structure EntradaHistorial where
  estado_nuevo : String
  fecha : String
  razon : String
deriving DecidableEq, Repr

/-- The value of `monto_pendiente`: an amount in céntimos, or the member of
`Object.prototype` that `montos[tipo]` finds when `tipo` names one. -/
inductive Monto where
  | centimos (c : Nat)
  | heredado (nombre : String)
deriving DecidableEq, Repr

/-- A procedure of `datosDemo.tramites`; `historial` is `none` when the field is absent. -/
structure Tramite where
  id : Ident
  numero_expediente : String
  ciudadano_id : Option Ident
  tipo : String
  descripcion : String
  estado : String
  fecha_inicio : String
  fecha_completado : Option String
  monto_pendiente : Monto
  historial : Option (List EntradaHistorial)
deriving DecidableEq, Repr

/-- A debt of `datosDemo.deudas`, amounts in céntimos. -/
structure Deuda where
  id : Ident
  ciudadano_id : Ident
  tipo : String
  monto_base : Nat
  intereses_moratorios : Nat
  monto_total : Nat
  periodo : String
  fecha_vencimiento : String
  estado : String
deriving DecidableEq, Repr

/-- The store `this.datosDemo`. -/
structure DatosDemo where
  ciudadanos : List Ciudadano
  tramites : List Tramite
  deudas : List Deuda
deriving DecidableEq, Repr

/-- The result object of a method that catches its errors:
`{ success: true, data, message }` or `{ success: false, error }`. -/
inductive Resultado (α : Type) where
  | exito (data : α) (message : String)
  | fallo (error : String)
deriving DecidableEq, Repr

/-- The `success` field of a result object. -/
def Resultado.success {α : Type} : Resultado α → Bool
  | .exito _ _ => true
  | .fallo _ => false

/-- The store built by the constructor. -/
def inicializarDatosDemo : DatosDemo where
  ciudadanos := [
    { id := .entero 1
      dni := some "12345678"
      nombre := some "JUAN CARLOS DELGADO MARTINEZ"
      email := some "juan.delgado@email.com"
      telefono := some "987654321"
      direccion := some "JR. REAL 456, HUANCAYO"
      fecha_registro := none }]
  tramites := [
    { id := .entero 1
      numero_expediente := "EXP-2024-001234"
      ciudadano_id := some (.entero 1)
      tipo := "LICENCIA_FUNCIONAMIENTO"
      descripcion := "Solicitud de licencia para restaurante"
      estado := "EN_REVISION"
      fecha_inicio := "2024-01-15T10:00:00Z"
      fecha_completado := none
      monto_pendiente := .centimos 24500
      historial := none },
    { id := .entero 2
      numero_expediente := "EXP-2024-001189"
      ciudadano_id := some (.entero 1)
      tipo := "PERMISO_CONSTRUCCION"
      descripcion := "Permiso para ampliación de vivienda"
      estado := "PENDIENTE"
      fecha_inicio := "2024-01-10T09:30:00Z"
      fecha_completado := none
      monto_pendiente := .centimos 38000
      historial := none }]
  deudas := [
    { id := .entero 1
      ciudadano_id := .entero 1
      tipo := "ARBITRIOS"
      monto_base := 42000
      intereses_moratorios := 4500
      monto_total := 46500
      periodo := "Ene-Mar 2024"
      fecha_vencimiento := "2024-11-15"
      estado := "PENDIENTE" },
    { id := .entero 2
      ciudadano_id := .entero 1
      tipo := "MULTA_TRANSITO"
      monto_base := 25000
      intereses_moratorios := 3000
      monto_total := 28000
      periodo := "Ago 2024"
      fecha_vencimiento := "2024-10-01"
      estado := "PENDIENTE" }]

/-! ## Helpers for JavaScript idioms -/

/-- Truthiness of an optional string field: present and not the empty string. -/
def presente : Option String → Bool
  | none => false
  | some s => decide (s ≠ "")

/-- In-place update of the object that `find` returns: the first element satisfying `p`. -/
def modificarPrimero {α : Type} (p : α → Bool) (f : α → α) : List α → List α
  | [] => []
  | x :: xs => if p x then f x :: xs else x :: modificarPrimero p f xs

/-- The message of the `TypeError` raised by `tramite.historial.push(...)` when
`historial` is `undefined` (wording of V8). -/
def errorHistorialIndefinido : String :=
  "Cannot read properties of undefined (reading \x27push\x27)"

/-! ## Citizens (HU-014) -/

/-- The argument `datos` of `registrarCiudadano`; an absent field is `none`. -/
structure DatosCiudadano where
  id : Option Ident
  dni : Option String
  nombre : Option String
  email : Option String
  telefono : Option String
  direccion : Option String
deriving DecidableEq, Repr

/-- The test `/^\d{8}$/.test(datos.dni)`: exactly eight ASCII digits. -/
def dniValido : Option String → Bool
  | none => false
  | some s => decide (s.length = 8) && s.toList.all Char.isDigit

/-- Method `obtenerCiudadano(id)`: the error is rethrown, the store is only read. -/
def obtenerCiudadano (s : DatosDemo) (id : Ident) : Except String Ciudadano :=
  match s.ciudadanos.find? (fun c => decide (c.id = id)) with
  | none => .error "Ciudadano no encontrado"
  | some c => .ok c

/-- Method `registrarCiudadano(datos)`; `ahora` is `new Date().toISOString()`.
The record is `{ id: nuevoId, ...datos, fecha_registro }`: a field `id` of `datos`
replaces `nuevoId`. -/
def registrarCiudadano (s : DatosDemo) (ahora : String) (datos : DatosCiudadano) :
    Resultado Ciudadano × DatosDemo :=
  if !dniValido datos.dni then (.fallo "DNI debe tener 8 dígitos", s)
  else if !presente datos.email || !presente datos.telefono then
    (.fallo "Email y teléfono son requeridos", s)
  else
    let nuevoId := (mathMax (s.ciudadanos.map (fun c => c.id))).mas1
    let ciudadano : Ciudadano :=
      { id := match datos.id with
          | some i => i
          | none => nuevoId
        dni := datos.dni
        nombre := datos.nombre
        email := datos.email
        telefono := datos.telefono
        direccion := datos.direccion
        fecha_registro := some ahora }
    (.exito ciudadano "Ciudadano registrado exitosamente",
      { s with ciudadanos := s.ciudadanos ++ [ciudadano] })

/-! ## Procedures (HU-001, HU-002, HU-004, HU-005) -/

/-- Property names that the object literal `montos` inherits from `Object.prototype`;
`montos[tipo]` is truthy for each of them. -/
def propiedadesHeredadas : List String :=
  ["constructor", "hasOwnProperty", "isPrototypeOf", "propertyIsEnumerable",
   "toLocaleString", "toString", "valueOf", "__defineGetter__", "__defineSetter__",
   "__lookupGetter__", "__lookupSetter__", "__proto__"]

/-- Method `calcularMontoTramite(tipo)`: `montos[tipo] || 100.00`. -/
def calcularMontoTramite (tipo : String) : Monto :=
  if tipo = "LICENCIA_FUNCIONAMIENTO" then .centimos 24500
  else if tipo = "PERMISO_CONSTRUCCION" then .centimos 38000
  else if tipo = "CERTIFICADO_PARAMETROS" then .centimos 15000
  else if tipo ∈ propiedadesHeredadas then .heredado tipo
  else .centimos 10000

/-- The argument `datos` of `registrarTramite`; an absent field is `none`. -/
structure DatosTramite where
  ciudadanoId : Option Ident
  tipo : Option String
  descripcion : Option String
deriving DecidableEq, Repr

/-- Clock and random inputs of one call of `registrarTramite`. -/
structure EntornoTramite where
  anio : Nat
  aleatorio : Fraccion
  fechaInicio : String
  fechaHistorial : String
deriving DecidableEq, Repr

/-- The suffix `Math.floor(100000 + Math.random() * 900000)` for the draw `r`. -/
def sufijoExpediente (r : Fraccion) : Nat := (Fraccion.masNat 100000 (r.por 900000)).piso

/-- The template string of `registrarTramite` for year `anio` and draw `r`. -/
def numeroExpediente (anio : Nat) (r : Fraccion) : String :=
  "EXP-" ++ toString anio ++ "-" ++ toString (sufijoExpediente r)

/-- Method `registrarTramite(datos)`. -/
def registrarTramite (s : DatosDemo) (e : EntornoTramite) (datos : DatosTramite) :
    Resultado Tramite × DatosDemo :=
  if !presente datos.tipo || !presente datos.descripcion then
    (.fallo "Tipo y descripción son requeridos", s)
  else
    let tipo := datos.tipo.getD ""
    let nuevoTramite : Tramite :=
      { id := (mathMax (s.tramites.map (fun t => t.id))).mas1
        numero_expediente := numeroExpediente e.anio e.aleatorio
        ciudadano_id := datos.ciudadanoId
        tipo := tipo
        descripcion := datos.descripcion.getD ""
        estado := "PENDIENTE"
        fecha_inicio := e.fechaInicio
        fecha_completado := none
        monto_pendiente := calcularMontoTramite tipo
        historial := some [
          { estado_nuevo := "PENDIENTE"
            fecha := e.fechaHistorial
            razon := "Trámite iniciado" }] }
    (.exito nuevoTramite "Trámite registrado exitosamente",
      { s with tramites := s.tramites ++ [nuevoTramite] })

/-- Method `obtenerTramitesCiudadano(ciudadanoId)`. -/
def obtenerTramitesCiudadano (s : DatosDemo) (ciudadanoId : Option Ident) : List Tramite :=
  s.tramites.filter (fun t => decide (t.ciudadano_id = ciudadanoId))

/-- Method `obtenerDetalleTramite(expediente)`: the error is rethrown. -/
def obtenerDetalleTramite (s : DatosDemo) (expediente : String) : Except String Tramite :=
  match s.tramites.find? (fun t => decide (t.numero_expediente = expediente)) with
  | none => .error "Trámite no encontrado"
  | some t => .ok t

/-- Method `cancelarTramite(tramiteId)`; `ahora` is `new Date().toISOString()`.
The assignment of `CANCELADO` to `tramite.estado` precedes `tramite.historial.push`,
which raises a `TypeError` when the procedure has no `historial`. -/
def cancelarTramite (s : DatosDemo) (ahora : String) (tramiteId : Ident) :
    Resultado Unit × DatosDemo :=
  match s.tramites.find? (fun t => decide (t.id = tramiteId)) with
  | none => (.fallo "Trámite no encontrado", s)
  | some tramite =>
    if tramite.estado ≠ "PENDIENTE" then
      (.fallo "Solo se pueden cancelar trámites pendientes", s)
    else
      let ts1 := modificarPrimero (fun t => decide (t.id = tramiteId))
        (fun t => { t with estado := "CANCELADO" }) s.tramites
      match tramite.historial with
      | none => (.fallo errorHistorialIndefinido, { s with tramites := ts1 })
      | some h =>
        let entrada : EntradaHistorial :=
          { estado_nuevo := "CANCELADO"
            fecha := ahora
            razon := "Cancelado por el usuario" }
        let ts2 := modificarPrimero (fun t => decide (t.id = tramiteId))
          (fun t => { t with historial := some (h ++ [entrada]) }) ts1
        (.exito () "Trámite cancelado exitosamente", { s with tramites := ts2 })

/-! ## Payments (HU-006, HU-007, HU-010) -/

/-- The test `t.monto_pendiente > 0`; an inherited function converts to `NaN`. -/
def Monto.positivo : Monto → Bool
  | .centimos c => decide (0 < c)
  | .heredado _ => false

/-- Method `obtenerExpedientesPendientesPago(ciudadanoId)`. -/
def obtenerExpedientesPendientesPago (s : DatosDemo) (ciudadanoId : Option Ident) :
    List Tramite :=
  s.tramites.filter (fun t => decide (t.ciudadano_id = ciudadanoId) && t.monto_pendiente.positivo)

/-- The argument `datosPago` of `procesarPago`; an absent field is `none`,
`monto` is in céntimos. -/
structure DatosPago where
  metodo : Option String
  monto : Option Int
  expedienteId : Option Ident
deriving DecidableEq, Repr

/-- Clock and random inputs of one call of `procesarPago`: the draw deciding the
simulated gateway, `Date.now()`, the draw of the receipt, and the two timestamps. -/
structure EntornoPago where
  aleatorioPasarela : Fraccion
  ahoraMs : Nat
  aleatorioComprobante : Fraccion
  fechaHistorial : String
  fechaRespuesta : String
deriving DecidableEq, Repr

/-- The `data` of a successful `procesarPago`. -/
structure Comprobante where
  comprobante : String
  fecha : String
  monto : Option Int
deriving DecidableEq, Repr

/-- The test `datosPago.monto <= 0`; it is false when `monto` is absent (`undefined <= 0`). -/
def montoNoPositivo : Option Int → Bool
  | none => false
  | some m => decide (m ≤ 0)

/-- The simulated gateway `Math.random() > 0.1` for the draw `r`. -/
def pasarelaAprueba (r : Fraccion) : Bool := r.mayorQue (redondear 1 10)

/-- The receipt string of `procesarPago`. -/
def generarComprobante (ahoraMs : Nat) (r : Fraccion) : String :=
  "COMP-" ++ toString ahoraMs ++ "-" ++ toString (r.por 10000).piso

/-- The loose comparison `t.id == datosPago.expedienteId`. -/
def coincideExpediente (expedienteId : Option Ident) (t : Tramite) : Bool :=
  decide (some t.id = expedienteId)

/-- Method `procesarPago(datosPago)`.  The assignment `tramite.monto_pendiente = 0`
precedes `tramite.historial.push`, which raises a `TypeError` when the procedure
has no `historial`. -/
def procesarPago (s : DatosDemo) (e : EntornoPago) (datosPago : DatosPago) :
    Resultado Comprobante × DatosDemo :=
  if !presente datosPago.metodo || montoNoPositivo datosPago.monto then
    (.fallo "Datos de pago inválidos", s)
  else if !pasarelaAprueba e.aleatorioPasarela then
    (.fallo "Pago rechazado por el banco", s)
  else
    let comprobante := generarComprobante e.ahoraMs e.aleatorioComprobante
    match s.tramites.find? (coincideExpediente datosPago.expedienteId) with
    | none =>
      (.exito { comprobante := comprobante, fecha := e.fechaRespuesta, monto := datosPago.monto }
        "Pago procesado exitosamente", s)
    | some tramite =>
      let ts1 := modificarPrimero (coincideExpediente datosPago.expedienteId)
        (fun t => { t with monto_pendiente := .centimos 0 }) s.tramites
      match tramite.historial with
      | none => (.fallo errorHistorialIndefinido, { s with tramites := ts1 })
      | some h =>
        let entrada : EntradaHistorial :=
          { estado_nuevo := "EN_REVISION"
            fecha := e.fechaHistorial
            razon := "Pago confirmado - En revisión" }
        let ts2 := modificarPrimero (coincideExpediente datosPago.expedienteId)
          (fun t => { t with historial := some (h ++ [entrada]) }) ts1
        (.exito { comprobante := comprobante, fecha := e.fechaRespuesta, monto := datosPago.monto }
          "Pago procesado exitosamente", { s with tramites := ts2 })

/-! ## Debts (HU-008, HU-009) -/

/-- Method `obtenerDeudasCiudadano(ciudadanoId)`. -/
def obtenerDeudasCiudadano (s : DatosDemo) (ciudadanoId : Ident) : List Deuda :=
  s.deudas.filter (fun d => decide (d.ciudadano_id = ciudadanoId) && decide (d.estado = "PENDIENTE"))

/-- Method `pagarDeuda(deudaId)`. -/
def pagarDeuda (s : DatosDemo) (deudaId : Ident) : Resultado Unit × DatosDemo :=
  match s.deudas.find? (fun d => decide (d.id = deudaId)) with
  | none => (.fallo "Deuda no encontrada", s)
  | some _ =>
    let ds := modificarPrimero (fun d => decide (d.id = deudaId))
      (fun d => { d with estado := "PAGADO" }) s.deudas
    (.exito () "Deuda pagada exitosamente", { s with deudas := ds })

/-- The `data` of a successful `crearPlanPagos`; `montoCuota` is the string that
`toFixed(2)` returns, read as a number of céntimos. -/
structure PlanPagos where
  numeroCuotas : Int
  montoCuota : Nat
  montoTotal : Nat
deriving DecidableEq, Repr

/-- The expression `(deuda.monto_total / numeroCuotas).toFixed(2)`, in céntimos,
for a total of `total` céntimos and a positive number of installments. -/
def montoCuota (total : Nat) (numeroCuotas : Nat) : Nat :=
  aFijo2 ((numeroDeCentimos total).entre numeroCuotas)

/-- Method `crearPlanPagos(deudaId, numeroCuotas)` for an integer `numeroCuotas`. -/
def crearPlanPagos (s : DatosDemo) (deudaId : Ident) (numeroCuotas : Int) :
    Resultado PlanPagos × DatosDemo :=
  match s.deudas.find? (fun d => decide (d.id = deudaId)) with
  | none => (.fallo "Deuda no encontrada", s)
  | some deuda =>
    if numeroCuotas < 3 ∨ numeroCuotas > 12 then
      (.fallo "El plan debe ser entre 3 y 12 cuotas", s)
    else
      let ds := modificarPrimero (fun d => decide (d.id = deudaId))
        (fun d => { d with estado := "FRACCIONADO" }) s.deudas
      (.exito
        { numeroCuotas := numeroCuotas
          montoCuota := montoCuota deuda.monto_total numeroCuotas.toNat
          montoTotal := deuda.monto_total }
        "Plan de pagos creado exitosamente", { s with deudas := ds })

/-! ## Reachable stores -/

/-- One call of a mutating public method, with any arguments and any clock and
random inputs, takes the store `s` to the store `t`. -/
inductive Paso : DatosDemo → DatosDemo → Prop where
  | ciudadano (s : DatosDemo) (ahora : String) (datos : DatosCiudadano) :
      Paso s (registrarCiudadano s ahora datos).2
  | tramite (s : DatosDemo) (e : EntornoTramite) (datos : DatosTramite) :
      Paso s (registrarTramite s e datos).2
  | cancelar (s : DatosDemo) (ahora : String) (tramiteId : Ident) :
      Paso s (cancelarTramite s ahora tramiteId).2
  | pago (s : DatosDemo) (e : EntornoPago) (datosPago : DatosPago) :
      Paso s (procesarPago s e datosPago).2
  | deuda (s : DatosDemo) (deudaId : Ident) :
      Paso s (pagarDeuda s deudaId).2
  | plan (s : DatosDemo) (deudaId : Ident) (numeroCuotas : Int) :
      Paso s (crearPlanPagos s deudaId numeroCuotas).2

/-- Any finite sequence of calls takes the store `s` to the store `t`. -/
inductive Pasos : DatosDemo → DatosDemo → Prop where
  | nada (s : DatosDemo) : Pasos s s
  | mas {s t u : DatosDemo} : Pasos s t → Paso t u → Pasos s u

/-- The stores the program can be in: those reached from the store built by the
constructor by any sequence of calls. -/
def Alcanzable (s : DatosDemo) : Prop := Pasos inicializarDatosDemo s

/-! ## Sample inputs -/

/-- Clock and random inputs of a payment that the gateway approves (draw `0.5`). -/
def ejemploPagoAprobado : EntornoPago :=
  { aleatorioPasarela := ⟨1, 2⟩
    ahoraMs := 1718000000000
    aleatorioComprobante := ⟨1, 4⟩
    fechaHistorial := "2024-06-10T06:13:20.000Z"
    fechaRespuesta := "2024-06-10T06:13:20.001Z" }

/-- Clock and random inputs of a payment that the gateway declines (draw `0.0625`). -/
def ejemploPagoRechazado : EntornoPago :=
  { ejemploPagoAprobado with aleatorioPasarela := ⟨1, 16⟩ }

/-- Clock and random inputs of a registration (draw `0.5`, year 2024). -/
def ejemploEntornoTramite : EntornoTramite :=
  { anio := 2024
    aleatorio := ⟨1, 2⟩
    fechaInicio := "2024-06-10T06:00:00.000Z"
    fechaHistorial := "2024-06-10T06:00:00.001Z" }

/-- A registration request for citizen 1. -/
def ejemploDatosTramite : DatosTramite :=
  { ciudadanoId := some (.entero 1)
    tipo := some "LICENCIA_FUNCIONAMIENTO"
    descripcion := some "Licencia para bodega" }

/-- A registration request for a citizen that carries an `id` field of its own. -/
def ejemploCiudadanoConId : DatosCiudadano :=
  { id := some (.entero 1)
    dni := some "87654321"
    nombre := some "ANA ROJAS QUISPE"
    email := some "ana.rojas@email.com"
    telefono := some "912345678"
    direccion := none }

/-- A store whose only debt has a total of 4.02. -/
def ejemploDeudaPequena : DatosDemo :=
  { ciudadanos := inicializarDatosDemo.ciudadanos
    tramites := inicializarDatosDemo.tramites
    deudas := [
      { id := .entero 1
        ciudadano_id := .entero 1
        tipo := "ARBITRIOS"
        monto_base := 400
        intereses_moratorios := 2
        monto_total := 402
        periodo := "Abr 2024"
        fecha_vencimiento := "2024-12-15"
        estado := "PENDIENTE" }] }

/-! ## Notions of the specification -/

/-- The edges of the state machine of the specification:
`PENDIENTE → EN_REVISION`, `PENDIENTE → CANCELADO`, `EN_REVISION → COMPLETADO`. -/
def aristaLegal (a b : String) : Prop :=
  (a = "PENDIENTE" ∧ b = "EN_REVISION") ∨ (a = "PENDIENTE" ∧ b = "CANCELADO") ∨
    (a = "EN_REVISION" ∧ b = "COMPLETADO")

/-- The procedure `b` is the procedure `a` one call later: same id, and its estado is the
same or has moved along an edge of the state machine. -/
def TransicionLegal (a b : Tramite) : Prop :=
  b.id = a.id ∧ (b.estado = a.estado ∨ aristaLegal a.estado b.estado)

/-- Rounding of the specification: `total / numeroCuotas` céntimos rounded to a whole
number of céntimos, half up, in exact arithmetic. -/
def cuotaMediaArriba (total numeroCuotas : Nat) : Nat :=
  (2 * total + numeroCuotas) / (2 * numeroCuotas)

/-- The timestamp `a` is earlier than `b`: lexicographic order of the ISO strings. -/
def fechaAnterior (a b : String) : Prop := a.toList < b.toList

/-- Order of the specification on a listing: `fecha_inicio` ascending, ties broken by
ascending id. -/
def OrdenadoPorFecha (l : List Tramite) : Prop :=
  l.Pairwise (fun a b => fechaAnterior a.fecha_inicio b.fecha_inicio ∨
    (a.fecha_inicio = b.fecha_inicio ∧ Ident.menor a.id b.id))

/-! ## Invariants -/

/-- The identifiers of a list are well formed: there is at least one, all are
integers, and no two are equal. -/
def IdsBien (ids : List Ident) : Prop :=
  ids ≠ [] ∧ (∀ x ∈ ids, ∃ z, x = Ident.entero z) ∧ ids.Nodup

/-! ## Rounding error of doubles -/

/-- With enough fuel the fuelled logarithm brackets its argument between two powers of 2. -/
theorem log2Aux_cotas (fuel : Nat) : ∀ n : Nat, n ≤ fuel → 0 < n →
    2 ^ log2Aux fuel n ≤ n ∧ n < 2 ^ (log2Aux fuel n + 1) := by
  induction fuel with
  | zero => intro n h hn; omega
  | succ fuel ih =>
    intro n h hn
    unfold log2Aux
    by_cases h2 : n < 2
    · simp only [h2, if_true]
      have : n = 1 := by omega
      subst this
      simp
    · simp only [h2, if_false]
      obtain ⟨h3, h4⟩ := ih (n / 2) (by omega) (by omega)
      constructor
      · rw [pow_succ]; omega
      · rw [pow_succ] at h4 ⊢; omega

/-- For positive `n`, `2 ^ log2 n <= n < 2 ^ (log2 n + 1)`. -/
theorem log2_cotas (n : Nat) (hn : 0 < n) : 2 ^ log2 n ≤ n ∧ n < 2 ^ (log2 n + 1) :=
  log2Aux_cotas n n (le_refl n) hn

/-- The rounded quotient is within one half of `a / b`. -/
theorem redondeoParCercano_cotas (a b : Nat) (hb : 0 < b) :
    2 * (redondeoParCercano a b * b) ≤ 2 * a + b ∧
    2 * a ≤ 2 * (redondeoParCercano a b * b) + b := by
  have hdm : b * (a / b) + a % b = a := Nat.div_add_mod a b
  have hlt : a % b < b := Nat.mod_lt a hb
  unfold redondeoParCercano
  simp only
  have hq : a / b * b = b * (a / b) := Nat.mul_comm _ _
  have hq1 : (a / b + 1) * b = b * (a / b) + b := by ring
  split
  · rw [hq]; omega
  · split
    · rw [hq1]; omega
    · split
      · rw [hq]; omega
      · rw [hq1]; omega

/-- Powers of two with integer exponents, through the two natural exponents used by `redondear`. -/
theorem pot_toNat (e : Int) : ((2 : ℚ) ^ e.toNat) = 2 ^ e * 2 ^ (-e).toNat := by
  rcases le_total 0 e with h | h
  · have h1 : (-e).toNat = 0 := by omega
    have h2 : ((e.toNat : Int)) = e := Int.toNat_of_nonneg h
    rw [h1, pow_zero, mul_one]
    conv_rhs => rw [← h2]
    rw [zpow_natCast]
  · have h1 : e.toNat = 0 := by omega
    have h2 : (((-e).toNat : Int)) = -e := Int.toNat_of_nonneg (by omega)
    rw [h1, pow_zero, ← zpow_natCast, h2, ← zpow_add₀ (by norm_num : (2 : ℚ) ≠ 0)]
    simp

/-- The scaled quotient `(a / b) / 2 ^ exponente a b` is at least `2 ^ 52`. -/
theorem exponente_cota (a b : Nat) (ha : 0 < a) (hb : 0 < b) :
    (2 : ℚ) ^ 52 * 2 ^ (exponente a b) * b ≤ a := by
  obtain ⟨ha1, _⟩ := log2_cotas a ha
  obtain ⟨_, hb2⟩ := log2_cotas b hb
  have h2 : (2 : ℚ) ≠ 0 := by norm_num
  have hbq : (0 : ℚ) < b := by exact_mod_cast hb
  unfold exponente
  simp only
  split
  · -- the quotient is below 2^52 at the first guess: one exponent lower
    have e1 : (2 : ℚ) ^ 52 * 2 ^ ((log2 a : Int) - (log2 b : Int) - 52 - 1)
        = 2 ^ ((log2 a : Int) - ((log2 b + 1 : Nat) : Int)) := by
      rw [show (2 : ℚ) ^ 52 = 2 ^ (52 : Int) by norm_num, ← zpow_add₀ h2]
      congr 1
      push_cast
      ring
    rw [e1, zpow_sub₀ h2, zpow_natCast, zpow_natCast]
    have hb3 : (b : ℚ) ≤ 2 ^ (log2 b + 1) := by exact_mod_cast hb2.le
    have ha3 : (2 : ℚ) ^ log2 a ≤ a := by exact_mod_cast ha1
    have hpos : (0 : ℚ) < 2 ^ (log2 b + 1) := by positivity
    calc (2 : ℚ) ^ log2 a / 2 ^ (log2 b + 1) * b
        ≤ 2 ^ log2 a / 2 ^ (log2 b + 1) * 2 ^ (log2 b + 1) := by
          apply mul_le_mul_of_nonneg_left hb3; positivity
      _ = 2 ^ log2 a := by field_simp
      _ ≤ a := ha3
  · rename_i hno
    have hno2 : b * 2 ^ (((log2 a : Int) - (log2 b : Int) - 52).toNat + 52)
        ≤ a * 2 ^ (-((log2 a : Int) - (log2 b : Int) - 52)).toNat := Nat.le_of_not_lt hno
    have hq : (b : ℚ) * 2 ^ (((log2 a : Int) - (log2 b : Int) - 52).toNat + 52)
        ≤ a * 2 ^ (-((log2 a : Int) - (log2 b : Int) - 52)).toNat := by exact_mod_cast hno2
    rw [pow_add, pot_toNat] at hq
    have hpos : (0 : ℚ) < 2 ^ (-((log2 a : Int) - (log2 b : Int) - 52)).toNat := by positivity
    have : (2 : ℚ) ^ 52 * 2 ^ ((log2 a : Int) - (log2 b : Int) - 52) * b
        * 2 ^ (-((log2 a : Int) - (log2 b : Int) - 52)).toNat
        ≤ a * 2 ^ (-((log2 a : Int) - (log2 b : Int) - 52)).toNat := by
      calc _ = (b : ℚ) * (2 ^ ((log2 a : Int) - (log2 b : Int) - 52)
            * 2 ^ (-((log2 a : Int) - (log2 b : Int) - 52)).toNat * 2 ^ 52) := by ring
        _ ≤ _ := hq
    exact le_of_mul_le_mul_right this hpos

/-- Arithmetic core of the rounding error bound. -/
theorem error_aux (a b m E P : ℚ) (hb : 0 < b) (hE : 0 < E) (hP : 0 < P)
    (h1 : 2 * (m * (b * (E * P))) ≤ 2 * (a * P) + b * (E * P))
    (h2 : 2 * (a * P) ≤ 2 * (m * (b * (E * P))) + b * (E * P))
    (h3 : 2 ^ 52 * E * b ≤ a) :
    |m * E - a / b| ≤ a / b / 2 ^ 53 ∧ 0 < m := by
  have h1a : (2 * m * E * b) * P ≤ (2 * a + E * b) * P := by linarith
  have h1b : 2 * m * E * b ≤ 2 * a + E * b := le_of_mul_le_mul_right h1a hP
  have h2a : (2 * a) * P ≤ (2 * m * E * b + E * b) * P := by linarith
  have h2b : 2 * a ≤ 2 * m * E * b + E * b := le_of_mul_le_mul_right h2a hP
  obtain ⟨r, hr⟩ : ∃ r, r = a / b := ⟨_, rfl⟩
  have har : a = r * b := by rw [hr]; field_simp
  rw [← hr]
  subst har
  have h1c : 2 * m * E ≤ 2 * r + E := by
    have : (2 * m * E) * b ≤ (2 * r + E) * b := by linarith
    exact le_of_mul_le_mul_right this hb
  have h2c : 2 * r ≤ 2 * m * E + E := by
    have : (2 * r) * b ≤ (2 * m * E + E) * b := by linarith
    exact le_of_mul_le_mul_right this hb
  have h3c : 2 ^ 52 * E ≤ r := by
    have : (2 ^ 52 * E) * b ≤ r * b := by linarith
    exact le_of_mul_le_mul_right this hb
  constructor
  · rw [abs_le]
    norm_num at h3c ⊢
    constructor <;> linarith
  · norm_num at h3c
    have : 0 < m * E := by linarith
    by_contra hm
    have hm2 : m ≤ 0 := not_lt.mp hm
    have : m * E ≤ 0 := mul_nonpos_of_nonpos_of_nonneg hm2 hE.le
    linarith

/-- Rounding error bound for a given exponent and significand. -/
theorem redondear_error_aux (a b : Nat) (e : Int) (m : Nat) (hb : 0 < b)
    (hcota : (2 : ℚ) ^ 52 * 2 ^ e * b ≤ a)
    (h1 : 2 * (m * (b * 2 ^ e.toNat)) ≤ 2 * (a * 2 ^ (-e).toNat) + b * 2 ^ e.toNat)
    (h2 : 2 * (a * 2 ^ (-e).toNat) ≤ 2 * (m * (b * 2 ^ e.toNat)) + b * 2 ^ e.toNat) :
    |(Fraccion.mk (m * 2 ^ e.toNat) (2 ^ (-e).toNat)).valor - (a : ℚ) / b| ≤ (a : ℚ) / b / 2 ^ 53 ∧
    0 < m := by
  have h1q : (2 : ℚ) * ((m : ℚ) * ((b : ℚ) * 2 ^ e.toNat))
      ≤ 2 * ((a : ℚ) * 2 ^ (-e).toNat) + (b : ℚ) * 2 ^ e.toNat := by
    exact_mod_cast h1
  have h2q : (2 : ℚ) * ((a : ℚ) * 2 ^ (-e).toNat)
      ≤ 2 * ((m : ℚ) * ((b : ℚ) * 2 ^ e.toNat)) + (b : ℚ) * 2 ^ e.toNat := by
    exact_mod_cast h2
  have hpe := pot_toNat e
  rw [hpe] at h1q h2q
  have hP : (0 : ℚ) < 2 ^ (-e).toNat := by positivity
  have hE : (0 : ℚ) < 2 ^ e := by positivity
  obtain ⟨herr, hm⟩ := error_aux a b m _ _ (by exact_mod_cast hb) hE hP h1q h2q hcota
  have hval : (Fraccion.mk (m * 2 ^ e.toNat) (2 ^ (-e).toNat)).valor = (m : ℚ) * 2 ^ e := by
    unfold Fraccion.valor
    push_cast
    rw [hpe]
    field_simp
    ring
  exact ⟨by rw [hval]; exact herr, by exact_mod_cast hm⟩

/-- The relative error of rounding a positive quotient to a double is at most `2 ^ -53`;
the double is positive. -/
theorem redondear_error (a b : Nat) (ha : 0 < a) (hb : 0 < b) :
    |(redondear a b).valor - (a : ℚ) / b| ≤ (a : ℚ) / b / 2 ^ 53 ∧
    0 < (redondear a b).num ∧ 0 < (redondear a b).den := by
  have hcota := exponente_cota a b ha hb
  have hB : 0 < b * 2 ^ (exponente a b).toNat := Nat.mul_pos hb (Nat.two_pow_pos _)
  obtain ⟨h1, h2⟩ := redondeoParCercano_cotas (a * 2 ^ (-(exponente a b)).toNat)
    (b * 2 ^ (exponente a b).toNat) hB
  obtain ⟨herr, hm⟩ := redondear_error_aux a b _ _ hb hcota h1 h2
  have hr : redondear a b = Fraccion.mk
      (redondeoParCercano (a * 2 ^ (-(exponente a b)).toNat) (b * 2 ^ (exponente a b).toNat)
        * 2 ^ (exponente a b).toNat) (2 ^ (-(exponente a b)).toNat) := by
    unfold redondear
    have : ¬ (a = 0 ∨ b = 0) := by omega
    simp only [this, if_false]
  rw [hr]
  exact ⟨herr, Nat.mul_pos hm (Nat.two_pow_pos _), Nat.two_pow_pos _⟩

/-- The hundredths returned by `toFixed(2)` are within one half of `100 * x`. -/
theorem aFijo2_cotas (x : Fraccion) (hden : 0 < x.den) :
    (aFijo2 x : ℚ) ≤ 100 * x.valor + 1 / 2 ∧ 100 * x.valor - 1 / 2 < (aFijo2 x : ℚ) := by
  have hdm := Nat.div_add_mod (2 * 100 * x.num + x.den) (2 * x.den)
  have hlt := Nat.mod_lt (2 * 100 * x.num + x.den) (show 0 < 2 * x.den by omega)
  have h1 : 2 * x.den * aFijo2 x ≤ 2 * 100 * x.num + x.den := by
    unfold aFijo2; omega
  have h2 : 2 * 100 * x.num + x.den < 2 * x.den * aFijo2 x + 2 * x.den := by
    unfold aFijo2; omega
  have h1q : (2 : ℚ) * x.den * aFijo2 x ≤ 2 * 100 * x.num + x.den := by exact_mod_cast h1
  have h2q : (2 : ℚ) * 100 * x.num + x.den < 2 * x.den * aFijo2 x + 2 * x.den := by
    exact_mod_cast h2
  have hd : (0 : ℚ) < x.den := by exact_mod_cast hden
  unfold Fraccion.valor
  constructor
  · rw [show (100 : ℚ) * (x.num / x.den) + 1 / 2 = (2 * 100 * x.num + x.den) / (2 * x.den) by
      field_simp; ring]
    rw [le_div_iff₀ (by positivity)]
    linarith
  · rw [show (100 : ℚ) * (x.num / x.den) - 1 / 2 = (2 * 100 * x.num - x.den) / (2 * x.den) by
      field_simp; ring]
    rw [div_lt_iff₀ (by positivity)]
    linarith

/-- For a total below `2 ^ 50` céntimos, `n` times the installment differs from the total by
at most `n / 2` céntimos. -/
theorem montoCuota_cota (T n : Nat) (hn : 0 < n) (hT : T < 2 ^ 50) :
    2 * (n * montoCuota T n) ≤ 2 * T + n ∧ 2 * T ≤ 2 * (n * montoCuota T n) + n := by
  rcases Nat.eq_zero_or_pos T with h0 | hpos
  · subst h0
    simp [montoCuota, numeroDeCentimos, redondear, Fraccion.entre, aFijo2]
  · obtain ⟨herr1, hnum1, hden1⟩ := redondear_error T 100 hpos (by norm_num)
    obtain ⟨herr2, _, hden2⟩ := redondear_error (redondear T 100).num ((redondear T 100).den * n)
      hnum1 (Nat.mul_pos hden1 hn)
    obtain ⟨hc1, hc2⟩ := aFijo2_cotas _ hden2
    have hN : (0 : ℚ) < n := by exact_mod_cast hn
    have hD : (0 : ℚ) < (redondear T 100).den := by exact_mod_cast hden1
    have hTn : T < 1125899906842624 := by norm_num at hT; exact hT
    have hTq : (T : ℚ) < 1125899906842624 := by exact_mod_cast hTn
    have hTp : (0 : ℚ) < T := by exact_mod_cast hpos
    -- name the three doubles
    obtain ⟨v1, hv1⟩ : ∃ v, v = (redondear T 100).valor := ⟨_, rfl⟩
    obtain ⟨v2, hv2⟩ : ∃ v, v = (redondear (redondear T 100).num
      ((redondear T 100).den * n)).valor := ⟨_, rfl⟩
    obtain ⟨c, hc⟩ : ∃ c, c = montoCuota T n := ⟨_, rfl⟩
    have hcdef : montoCuota T n = aFijo2 (redondear (redondear T 100).num
      ((redondear T 100).den * n)) := rfl
    rw [← hcdef, ← hc, ← hv2] at hc1 hc2
    have hw : ((redondear T 100).num : ℚ) / (((redondear T 100).den * n : Nat) : ℚ) = v1 / n := by
      rw [hv1]; unfold Fraccion.valor; push_cast; field_simp
    rw [hw, ← hv2] at herr2
    rw [← hv1] at herr1
    rw [abs_le] at herr1 herr2
    obtain ⟨e1a, e1b⟩ := herr1
    obtain ⟨e2a, e2b⟩ := herr2
    have hv1n : (n : ℚ) * (v1 / n) = v1 := by field_simp
    have m2a := mul_le_mul_of_nonneg_left e2a hN.le
    have m2b := mul_le_mul_of_nonneg_left e2b hN.le
    have mc1 := mul_le_mul_of_nonneg_left hc1 hN.le
    have mc2 := mul_lt_mul_of_pos_left hc2 hN
    have k1 : (n : ℚ) * (v2 - v1 / n) = n * v2 - v1 := by rw [mul_sub, hv1n]
    have k2 : (n : ℚ) * (v1 / n / 2 ^ 53) = v1 / 2 ^ 53 := by field_simp; ring
    have k3 : (n : ℚ) * -(v1 / n / 2 ^ 53) = -(v1 / 2 ^ 53) := by field_simp; ring
    rw [k1, k2] at m2b
    rw [k1, k3] at m2a
    have k4 : (n : ℚ) * (100 * v2 + 1 / 2) = 100 * (n * v2) + n / 2 := by ring
    have k5 : (n : ℚ) * (100 * v2 - 1 / 2) = 100 * (n * v2) - n / 2 := by ring
    rw [k4] at mc1
    rw [k5] at mc2
    norm_num at e1a e1b m2a m2b
    have g1 : (2 : ℚ) * (n * c) < 2 * T + n + 1 := by linarith
    have g2 : (2 : ℚ) * T < 2 * (n * c) + n + 1 := by linarith
    have g1n : 2 * (n * c) < 2 * T + n + 1 := by exact_mod_cast g1
    have g2n : 2 * T < 2 * (n * c) + n + 1 := by exact_mod_cast g2
    rw [← hc]
    omega

/-! ## Range of the file-number suffix -/

/-- The parts of a rounded positive quotient: a significand `m` and an exponent `e` with
`2 ^ 52 <= (a / b) / 2 ^ e` and `m` within one half of `(a / b) / 2 ^ e`. -/
theorem redondear_forma (a b : Nat) (ha : 0 < a) (hb : 0 < b) :
    ∃ (m : Nat) (e : Int),
      redondear a b = ⟨m * 2 ^ e.toNat, 2 ^ (-e).toNat⟩ ∧
      (redondear a b).valor = (m : ℚ) * 2 ^ e ∧
      (2 : ℚ) ^ 52 * 2 ^ e * b ≤ a ∧
      2 * ((m : ℚ) * 2 ^ e * b) ≤ 2 * a + 2 ^ e * b ∧
      2 * (a : ℚ) ≤ 2 * ((m : ℚ) * 2 ^ e * b) + 2 ^ e * b := by
  have hcota := exponente_cota a b ha hb
  have hB : 0 < b * 2 ^ (exponente a b).toNat := Nat.mul_pos hb (Nat.two_pow_pos _)
  obtain ⟨h1, h2⟩ := redondeoParCercano_cotas (a * 2 ^ (-(exponente a b)).toNat)
    (b * 2 ^ (exponente a b).toNat) hB
  have hr : redondear a b = Fraccion.mk
      (redondeoParCercano (a * 2 ^ (-(exponente a b)).toNat) (b * 2 ^ (exponente a b).toNat)
        * 2 ^ (exponente a b).toNat) (2 ^ (-(exponente a b)).toNat) := by
    unfold redondear
    have : ¬ (a = 0 ∨ b = 0) := by omega
    simp only [this, if_false]
  obtain ⟨m, hm⟩ : ∃ m, m = redondeoParCercano (a * 2 ^ (-(exponente a b)).toNat)
    (b * 2 ^ (exponente a b).toNat) := ⟨_, rfl⟩
  obtain ⟨e, he⟩ : ∃ e, e = exponente a b := ⟨_, rfl⟩
  rw [← hm, ← he] at hr h1 h2
  rw [← he] at hcota
  have h1q : (2 : ℚ) * ((m : ℚ) * ((b : ℚ) * 2 ^ e.toNat))
      ≤ 2 * ((a : ℚ) * 2 ^ (-e).toNat) + (b : ℚ) * 2 ^ e.toNat := by
    exact_mod_cast h1
  have h2q : (2 : ℚ) * ((a : ℚ) * 2 ^ (-e).toNat)
      ≤ 2 * ((m : ℚ) * ((b : ℚ) * 2 ^ e.toNat)) + (b : ℚ) * 2 ^ e.toNat := by
    exact_mod_cast h2
  have hpe := pot_toNat e
  rw [hpe] at h1q h2q
  have hP : (0 : ℚ) < 2 ^ (-e).toNat := by positivity
  refine ⟨m, e, hr, ?_, hcota, ?_, ?_⟩
  · rw [hr]
    unfold Fraccion.valor
    push_cast
    rw [hpe]
    field_simp
    ring
  · have : (2 * ((m : ℚ) * 2 ^ e * b)) * 2 ^ (-e).toNat
        ≤ (2 * a + 2 ^ e * b) * 2 ^ (-e).toNat := by linarith
    exact le_of_mul_le_mul_right this hP
  · have : (2 * (a : ℚ)) * 2 ^ (-e).toNat
        ≤ (2 * ((m : ℚ) * 2 ^ e * b) + 2 ^ e * b) * 2 ^ (-e).toNat := by linarith
    exact le_of_mul_le_mul_right this hP

/-- A quotient below `2 ^ 20` is rounded with an exponent of at most `-33`. -/
theorem exponente_bajo (x E : ℚ) (e : Int) (hE : E = 2 ^ e) (hx : x < 2 ^ 20)
    (hcota : 2 ^ 52 * E ≤ x) : e ≤ -33 := by
  by_contra hcon
  have h32 : (-32 : Int) ≤ e := by omega
  have : (2 : ℚ) ^ (-32 : Int) ≤ 2 ^ e := zpow_le_zpow_right₀ (by norm_num) h32
  rw [← hE] at this
  norm_num at this hx hcota
  linarith

/-- The form of a rounded quotient stated on the quotient `a / b` itself. -/
theorem redondear_forma_cociente (a b : Nat) (ha : 0 < a) (hb : 0 < b) :
    ∃ (m : Nat) (e : Int),
      redondear a b = ⟨m * 2 ^ e.toNat, 2 ^ (-e).toNat⟩ ∧
      (2 : ℚ) ^ 52 * 2 ^ e ≤ (a : ℚ) / b ∧
      2 * ((m : ℚ) * 2 ^ e) ≤ 2 * ((a : ℚ) / b) + 2 ^ e ∧
      2 * ((a : ℚ) / b) ≤ 2 * ((m : ℚ) * 2 ^ e) + 2 ^ e := by
  obtain ⟨m, e, hr, _, h1, h2, h3⟩ := redondear_forma a b ha hb
  have hbq : (0 : ℚ) < b := by exact_mod_cast hb
  refine ⟨m, e, hr, ?_, ?_, ?_⟩
  · rw [le_div_iff₀ hbq]; exact h1
  · have : 2 * ((m : ℚ) * 2 ^ e) = 2 * ((m : ℚ) * 2 ^ e * b) / b := by field_simp; ring
    have h4 : 2 * ((a : ℚ) / b) + 2 ^ e = (2 * a + 2 ^ e * b) / b := by field_simp
    rw [this, h4]
    exact div_le_div_of_nonneg_right h2 hbq.le
  · have : 2 * ((m : ℚ) * 2 ^ e) + 2 ^ e = (2 * ((m : ℚ) * 2 ^ e * b) + 2 ^ e * b) / b := by
      field_simp
      ring
    have h4 : 2 * ((a : ℚ) / b) = (2 * a) / b := by field_simp
    rw [this, h4]
    exact div_le_div_of_nonneg_right h3 hbq.le

/-- For an exponent `e <= 0`, `2 ^ e` is the inverse of a natural power of two. -/
theorem pot_negativa (e : Int) (he : e ≤ 0) : (2 : ℚ) ^ e * 2 ^ (-e).toNat = 1 := by
  have h := pot_toNat e
  have h0 : e.toNat = 0 := by omega
  rw [h0, pow_zero] at h
  exact h.symm

/-- Rounding a quotient `X` that lies below the integer `U <= 2 ^ 20` by more than half a
unit in the last place gives a double below `U`. -/
theorem redondeo_bajo_entero (m : Nat) (e : Int) (X δ : ℚ) (U : Nat)
    (hδ1 : 1 / 2 < δ) (hδ2 : δ ≤ 1) (hU : (U : ℚ) ≤ 2 ^ 20)
    (hX : X ≤ U - δ / 2 ^ 33) (hcota : (2 : ℚ) ^ 52 * 2 ^ e ≤ X)
    (hm : 2 * ((m : ℚ) * 2 ^ e) ≤ 2 * X + 2 ^ e) :
    (m : ℚ) * 2 ^ e ≤ U - (δ - 1 / 4) / 2 ^ 33 := by
  have hX20 : X < 2 ^ 20 := by
    have : (0 : ℚ) < δ / 2 ^ 33 := by positivity
    linarith
  have he := exponente_bajo X (2 ^ e) e rfl hX20 hcota
  rcases eq_or_lt_of_le he with h33 | h34
  · subst h33
    have hE : (2 : ℚ) ^ (-33 : Int) = 1 / 2 ^ 33 := by norm_num
    rw [hE] at hm ⊢
    have hlt : (m : ℚ) < ((U * 2 ^ 33 : Nat) : ℚ) := by
      push_cast
      have h1 : (m : ℚ) ≤ X * 2 ^ 33 + 1 / 2 := by
        have := mul_le_mul_of_nonneg_right hm (show (0 : ℚ) ≤ 2 ^ 33 / 2 by positivity)
        norm_num at this ⊢
        linarith
      have h2 : X * 2 ^ 33 ≤ U * 2 ^ 33 - δ := by
        have := mul_le_mul_of_nonneg_right hX (show (0 : ℚ) ≤ 2 ^ 33 by positivity)
        norm_num at this ⊢
        linarith
      linarith
    have hlt2 : m < U * 2 ^ 33 := by exact_mod_cast hlt
    have hle : m + 1 ≤ U * 2 ^ 33 := hlt2
    have hleq : (m : ℚ) + 1 ≤ U * 2 ^ 33 := by exact_mod_cast hle
    norm_num at hleq ⊢
    linarith
  · have h34b : e ≤ -34 := by omega
    have hE : (2 : ℚ) ^ e ≤ 2 ^ (-34 : Int) := zpow_le_zpow_right₀ (by norm_num) h34b
    have hE2 : (2 : ℚ) ^ (-34 : Int) = 1 / 2 ^ 34 := by norm_num
    rw [hE2] at hE
    norm_num at hE hX ⊢
    linarith

/-- Rounding a quotient `X` that is at least the integer `L`, with an exponent `e <= 0`,
gives a double that is at least `L`. -/
theorem redondeo_sobre_entero (m : Nat) (e : Int) (X : ℚ) (L : Nat) (he : e ≤ 0)
    (hX : (L : ℚ) ≤ X) (hm : 2 * X ≤ 2 * ((m : ℚ) * 2 ^ e) + 2 ^ e) :
    L * 2 ^ (-e).toNat ≤ m := by
  have hp := pot_negativa e he
  have hP : (0 : ℚ) < 2 ^ (-e).toNat := by positivity
  have h1 : 2 * X * 2 ^ (-e).toNat ≤ (2 * ((m : ℚ) * 2 ^ e) + 2 ^ e) * 2 ^ (-e).toNat :=
    mul_le_mul_of_nonneg_right hm hP.le
  have h2 : (2 * ((m : ℚ) * 2 ^ e) + 2 ^ e) * 2 ^ (-e).toNat = 2 * m + 1 := by
    calc (2 * ((m : ℚ) * 2 ^ e) + 2 ^ e) * 2 ^ (-e).toNat
        = (2 * m + 1) * (2 ^ e * 2 ^ (-e).toNat) := by ring
      _ = 2 * m + 1 := by rw [hp, mul_one]
  rw [h2] at h1
  have h3 : 2 * (L : ℚ) * 2 ^ (-e).toNat ≤ 2 * X * 2 ^ (-e).toNat := by
    apply mul_le_mul_of_nonneg_right _ hP.le
    linarith
  have h4 : (2 * (L * 2 ^ (-e).toNat) : ℚ) ≤ 2 * m + 1 := by linarith
  have h5 : 2 * (L * 2 ^ (-e).toNat) ≤ 2 * m + 1 := by exact_mod_cast h4
  omega

/-- A double in `[0, 1)` is at most `1 - 2 ^ -53`. -/
theorem aleatorio_cota (k j : Nat) (hk : k < 2 ^ 53) (hkj : k < 2 ^ j) :
    (k : ℚ) / 2 ^ j ≤ 1 - 1 / 2 ^ 53 := by
  rcases Nat.le_total j 53 with h | h
  · obtain ⟨d, hd⟩ := Nat.exists_eq_add_of_le h
    have h1 : (k + 1) * 2 ^ d ≤ 2 ^ j * 2 ^ d := Nat.mul_le_mul_right _ hkj
    rw [← pow_add, ← hd] at h1
    have hd1 : 1 ≤ 2 ^ d := Nat.one_le_two_pow
    have h2 : k * 2 ^ d + 1 ≤ 2 ^ 53 := by nlinarith
    have h2q : (k : ℚ) * 2 ^ d + 1 ≤ 2 ^ 53 := by exact_mod_cast h2
    have hj : (2 : ℚ) ^ 53 = 2 ^ j * 2 ^ d := by rw [← pow_add, ← hd]
    have hjp : (0 : ℚ) < 2 ^ j := by positivity
    have hdp : (0 : ℚ) < 2 ^ d := by positivity
    rw [div_le_iff₀ hjp]
    have h3 : (1 - 1 / (2 : ℚ) ^ 53) * 2 ^ j * 2 ^ d = 2 ^ 53 - 1 := by
      rw [mul_assoc, ← hj]; norm_num
    have h4 : (k : ℚ) * 2 ^ d ≤ (1 - 1 / (2 : ℚ) ^ 53) * 2 ^ j * 2 ^ d := by
      rw [h3]; linarith
    exact le_of_mul_le_mul_right h4 hdp
  · have hjp : (0 : ℚ) < 2 ^ j := by positivity
    rw [div_le_iff₀ hjp]
    have hk1 : k + 1 ≤ 2 ^ 53 := hk
    have hk2 : (k : ℚ) + 1 ≤ 2 ^ 53 := by exact_mod_cast hk1
    have hj : (2 : ℚ) ^ 53 ≤ 2 ^ j := pow_le_pow_right₀ (by norm_num) h
    have h5 : (1 - 1 / (2 : ℚ) ^ 53) * 2 ^ 53 ≤ (1 - 1 / (2 : ℚ) ^ 53) * 2 ^ j :=
      mul_le_mul_of_nonneg_left hj (by norm_num)
    have h6 : (1 - 1 / (2 : ℚ) ^ 53) * 2 ^ 53 = 2 ^ 53 - 1 := by norm_num
    linarith

/-- The suffix of a file number has exactly six digits: for every draw of
`Math.random()`, `Math.floor(100000 + r * 900000)` lies between 100000 and 999999. -/
theorem sufijoExpediente_rango (r : Fraccion) (h : EsAleatorio r) :
    100000 ≤ sufijoExpediente r ∧ sufijoExpediente r ≤ 999999 := by
  obtain ⟨hden, k, j, hk, hkj, hr⟩ := h
  rcases Nat.eq_zero_or_pos r.num with h0 | hnum
  · have hp : r.por 900000 = ⟨0, 1⟩ := by simp [Fraccion.por, h0, redondear]
    have hs : sufijoExpediente r = (Fraccion.masNat 100000 ⟨0, 1⟩).piso := by
      unfold sufijoExpediente; rw [hp]
    rw [hs]
    decide
  · have hdq : (0 : ℚ) < r.den := by exact_mod_cast hden
    have hρ : (r.num : ℚ) / r.den = (k : ℚ) / 2 ^ j := by
      have hrq : (r.num : ℚ) * 2 ^ j = k * r.den := by exact_mod_cast hr
      field_simp
      linarith
    have hρ1 := aleatorio_cota k j hk hkj
    rw [← hρ] at hρ1
    -- first rounding: r * 900000
    obtain ⟨m1, e1, hr1, hc1, hm1, _⟩ := redondear_forma_cociente (r.num * 900000) r.den
      (by omega) hden
    have hX1 : ((r.num * 900000 : Nat) : ℚ) / r.den = 900000 * ((r.num : ℚ) / r.den) := by
      push_cast; ring
    rw [hX1] at hc1 hm1
    have hP := redondeo_bajo_entero m1 e1 (900000 * ((r.num : ℚ) / r.den)) (900000 / 2 ^ 20)
      900000 (by norm_num) (by norm_num) (by norm_num)
      (by norm_num at hρ1 ⊢; linarith) hc1 hm1
    -- second rounding: 100000 + r * 900000
    have hpor : r.por 900000 = ⟨m1 * 2 ^ e1.toNat, 2 ^ (-e1).toNat⟩ := hr1
    have hb2 : 0 < 2 ^ (-e1).toNat := Nat.two_pow_pos _
    obtain ⟨m2, e2, hr2, hc2, hm2, hm2b⟩ := redondear_forma_cociente
      (100000 * 2 ^ (-e1).toNat + m1 * 2 ^ e1.toNat) (2 ^ (-e1).toNat) (by omega) hb2
    have hX2 : ((100000 * 2 ^ (-e1).toNat + m1 * 2 ^ e1.toNat : Nat) : ℚ)
        / ((2 ^ (-e1).toNat : Nat) : ℚ) = 100000 + (m1 : ℚ) * 2 ^ e1 := by
      have hP0 : (0 : ℚ) < 2 ^ (-e1).toNat := by positivity
      push_cast
      rw [pot_toNat e1]
      field_simp
      ring
    rw [hX2] at hc2 hm2 hm2b
    have hP0 : (0 : ℚ) ≤ (m1 : ℚ) * 2 ^ e1 := by positivity
    have hQ := redondeo_bajo_entero m2 e2 (100000 + (m1 : ℚ) * 2 ^ e1)
      (900000 / 2 ^ 20 - 1 / 4) 1000000 (by norm_num) (by norm_num) (by norm_num)
      (by norm_num at hP ⊢; linarith) hc2 hm2
    have he2 : e2 ≤ -33 := exponente_bajo (100000 + (m1 : ℚ) * 2 ^ e1) (2 ^ e2) e2 rfl
      (by norm_num at hP ⊢; linarith) hc2
    have hL := redondeo_sobre_entero m2 e2 (100000 + (m1 : ℚ) * 2 ^ e1) 100000 (by omega)
      (by push_cast; linarith) hm2b
    have hs : sufijoExpediente r = m2 / 2 ^ (-e2).toNat := by
      unfold sufijoExpediente Fraccion.masNat
      rw [hpor]
      simp only [hr2, Fraccion.piso]
      have : e2.toNat = 0 := by omega
      rw [this, pow_zero, mul_one]
    have hj2 : 0 < 2 ^ (-e2).toNat := Nat.two_pow_pos _
    rw [hs]
    constructor
    · rw [Nat.le_div_iff_mul_le hj2]
      exact hL
    · have hlt : m2 / 2 ^ (-e2).toNat < 1000000 := by
        rw [Nat.div_lt_iff_lt_mul hj2]
        have hpn := pot_negativa e2 (by omega)
        have hJ : (0 : ℚ) < 2 ^ (-e2).toNat := by positivity
        have hQ2 : (m2 : ℚ) * 2 ^ e2 < 1000000 := by
          norm_num at hQ ⊢; linarith
        have h3 : (m2 : ℚ) * 2 ^ e2 * 2 ^ (-e2).toNat < 1000000 * 2 ^ (-e2).toNat :=
          mul_lt_mul_of_pos_right hQ2 hJ
        rw [mul_assoc, hpn, mul_one] at h3
        exact_mod_cast h3
      omega

/-! ## Lists: `find` and in-place update -/

/-- If `find` returns `x`, the list splits around `x` and nothing before `x` satisfies `p`. -/
theorem find_descompone {α : Type} (p : α → Bool) (l : List α) (x : α)
    (h : l.find? p = some x) :
    ∃ antes despues, l = antes ++ x :: despues ∧ (∀ y ∈ antes, p y = false) ∧ p x = true := by
  induction l with
  | nil => simp at h
  | cons a l ih =>
    by_cases ha : p a = true
    · simp [List.find?, ha] at h
      subst h
      exact ⟨[], l, rfl, by simp, ha⟩
    · have ha2 : p a = false := by simpa using ha
      simp [List.find?, ha2] at h
      obtain ⟨antes, despues, hl, hant, hx⟩ := ih h
      refine ⟨a :: antes, despues, by simp [hl], ?_, hx⟩
      intro y hy
      rcases List.mem_cons.mp hy with rfl | hy
      · exact ha2
      · exact hant y hy

/-- The lookup `find` returns nothing exactly when no element satisfies `p`. -/
theorem find_ninguno {α : Type} (p : α → Bool) (l : List α) :
    l.find? p = none ↔ ∀ y ∈ l, p y = false := by
  induction l with
  | nil => simp
  | cons a l ih =>
    by_cases ha : p a = true
    · simp [List.find?, ha]
    · have ha2 : p a = false := by simpa using ha
      simp [List.find?, ha2, ih]

/-- The in-place update changes the first element satisfying `p` and nothing else. -/
theorem modificarPrimero_descompone {α : Type} (p : α → Bool) (f : α → α)
    (antes despues : List α) (x : α) (hant : ∀ y ∈ antes, p y = false) (hx : p x = true) :
    modificarPrimero p f (antes ++ x :: despues) = antes ++ f x :: despues := by
  induction antes with
  | nil => simp [modificarPrimero, hx]
  | cons a antes ih =>
    have ha : p a = false := hant a (by simp)
    have := ih (fun y hy => hant y (by simp [hy]))
    simp [modificarPrimero, ha, this]

/-- The in-place update leaves a list with no element satisfying `p` as it is. -/
theorem modificarPrimero_ninguno {α : Type} (p : α → Bool) (f : α → α) (l : List α)
    (h : ∀ y ∈ l, p y = false) : modificarPrimero p f l = l := by
  induction l with
  | nil => rfl
  | cons a l ih =>
    have ha : p a = false := h a (by simp)
    simp [modificarPrimero, ha, ih (fun y hy => h y (by simp [hy]))]

/-- The lookup `find` returns the first element satisfying `p`. -/
theorem find_de_descompone {α : Type} (p : α → Bool) (antes despues : List α) (x : α)
    (hant : ∀ y ∈ antes, p y = false) (hx : p x = true) :
    (antes ++ x :: despues).find? p = some x := by
  induction antes with
  | nil => simp [List.find?, hx]
  | cons a antes ih =>
    have ha : p a = false := hant a (by simp)
    simp [List.find?, ha, ih (fun y hy => hant y (by simp [hy]))]

/-! ## Effect of each method on the parts of the store -/

/-- An update that keeps the projection `g` of every element keeps the list of projections. -/
theorem modificarPrimero_map {α β : Type} (p : α → Bool) (f : α → α) (g : α → β)
    (hf : ∀ x, g (f x) = g x) (l : List α) :
    (modificarPrimero p f l).map g = l.map g := by
  induction l with
  | nil => rfl
  | cons a l ih =>
    by_cases ha : p a = true
    · simp [modificarPrimero, ha, hf]
    · have ha2 : p a = false := by simpa using ha
      simp [modificarPrimero, ha2, ih]

/-- An update that preserves `P` keeps an element satisfying `P` in the list. -/
theorem modificarPrimero_conserva {α : Type} (p : α → Bool) (f : α → α) (P : α → Prop)
    (hf : ∀ x, P x → P (f x)) (l : List α) (h : ∃ q ∈ l, P q) :
    ∃ q ∈ modificarPrimero p f l, P q := by
  induction l with
  | nil => simp at h
  | cons a l ih =>
    obtain ⟨q, hq, hP⟩ := h
    by_cases ha : p a = true
    · rcases List.mem_cons.mp hq with rfl | hq
      · exact ⟨f q, by simp [modificarPrimero, ha], hf q hP⟩
      · exact ⟨q, by simp [modificarPrimero, ha, hq], hP⟩
    · have ha2 : p a = false := by simpa using ha
      rcases List.mem_cons.mp hq with rfl | hq
      · exact ⟨q, by simp [modificarPrimero, ha2], hP⟩
      · obtain ⟨q2, hq2, hP2⟩ := ih ⟨q, hq, hP⟩
        exact ⟨q2, by simp [modificarPrimero, ha2, hq2], hP2⟩

/-- On a non-empty list of integers `Math.max` is an integer bounding every element. -/
theorem mathMax_cota (xs : List Ident) (henteros : ∀ x ∈ xs, ∃ z, x = .entero z) (hne : xs ≠ []) :
    ∃ m, mathMax xs = .entero m ∧ ∀ z, Ident.entero z ∈ xs → z ≤ m := by
  induction xs with
  | nil => exact absurd rfl hne
  | cons a xs ih =>
    obtain ⟨za, rfl⟩ := henteros _ (List.mem_cons_self _ _)
    by_cases hxs : xs = []
    · subst hxs
      refine ⟨za, by simp [mathMax, Ident.max2], ?_⟩
      intro z hz
      simp at hz
      omega
    · obtain ⟨m, hm, hcota⟩ := ih (fun x hx => henteros x (List.mem_cons_of_mem _ hx)) hxs
      have hm2 : List.foldr Ident.max2 .menosInfinito xs = .entero m := hm
      refine ⟨if za ≤ m then m else za, by simp [mathMax, hm2, Ident.max2], ?_⟩
      intro z hz
      rcases List.mem_cons.mp hz with h | h
      · injection h with h; subst h; split <;> omega
      · have := hcota z h
        split <;> omega


/-- The identifier `Math.max(...ids) + 1` is an integer and is not among `ids`. -/
theorem id_nuevo (ids : List Ident) (hent : ∀ x ∈ ids, ∃ z, x = Ident.entero z) (hne : ids ≠ []) :
    (∃ z, (mathMax ids).mas1 = .entero z) ∧ (mathMax ids).mas1 ∉ ids := by
  obtain ⟨m, hm, hcota⟩ := mathMax_cota ids hent hne
  refine ⟨⟨m + 1, by rw [hm]; rfl⟩, ?_⟩
  rw [hm]
  intro hmem
  have := hcota (m + 1) hmem
  omega

/-- Method `cancelarTramite` keeps the procedure ids, the citizens and the debts. -/
theorem cancelarTramite_ids (s : DatosDemo) (ahora : String) (i : Ident) :
    (cancelarTramite s ahora i).2.tramites.map (fun t => t.id) = s.tramites.map (fun t => t.id) ∧
    (cancelarTramite s ahora i).2.ciudadanos = s.ciudadanos ∧
    (cancelarTramite s ahora i).2.deudas = s.deudas := by
  unfold cancelarTramite
  split
  · simp
  · split
    · simp
    · split
      · simp [modificarPrimero_map]
      · simp [modificarPrimero_map]

/-- Method `cancelarTramite` keeps a procedure with id `j` that has a `historial`. -/
theorem cancelarTramite_conserva (s : DatosDemo) (ahora : String) (i j : Ident)
    (h : ∃ q ∈ s.tramites, q.id = j ∧ q.historial.isSome = true) :
    ∃ q ∈ (cancelarTramite s ahora i).2.tramites, q.id = j ∧ q.historial.isSome = true := by
  unfold cancelarTramite
  split
  · exact h
  · split
    · exact h
    · split
      · exact modificarPrimero_conserva _ _ _ (by intro x hx; exact hx) _ h
      · refine modificarPrimero_conserva _ _ _ (by intro x hx; exact ⟨hx.1, rfl⟩) _ ?_
        exact modificarPrimero_conserva _ _ _ (by intro x hx; exact hx) _ h

/-- Method `procesarPago` keeps the procedure ids, the citizens and the debts. -/
theorem procesarPago_ids (s : DatosDemo) (e : EntornoPago) (d : DatosPago) :
    (procesarPago s e d).2.tramites.map (fun t => t.id) = s.tramites.map (fun t => t.id) ∧
    (procesarPago s e d).2.ciudadanos = s.ciudadanos ∧
    (procesarPago s e d).2.deudas = s.deudas := by
  unfold procesarPago
  split
  · simp
  · split
    · simp
    · split
      · simp
      · split
        · simp [modificarPrimero_map]
        · simp [modificarPrimero_map]

/-- Method `procesarPago` keeps a procedure with id `j` that has a `historial`. -/
theorem procesarPago_conserva (s : DatosDemo) (e : EntornoPago) (d : DatosPago) (j : Ident)
    (h : ∃ q ∈ s.tramites, q.id = j ∧ q.historial.isSome = true) :
    ∃ q ∈ (procesarPago s e d).2.tramites, q.id = j ∧ q.historial.isSome = true := by
  unfold procesarPago
  split
  · exact h
  · split
    · exact h
    · split
      · exact h
      · split
        · exact modificarPrimero_conserva _ _ _ (by intro x hx; exact hx) _ h
        · refine modificarPrimero_conserva _ _ _ (by intro x hx; exact ⟨hx.1, rfl⟩) _ ?_
          exact modificarPrimero_conserva _ _ _ (by intro x hx; exact hx) _ h

/-- Method `registrarCiudadano` keeps the procedures and the debts. -/
theorem registrarCiudadano_resto (s : DatosDemo) (ahora : String) (d : DatosCiudadano) :
    (registrarCiudadano s ahora d).2.tramites = s.tramites ∧
    (registrarCiudadano s ahora d).2.deudas = s.deudas := by
  unfold registrarCiudadano
  split
  · simp
  · split <;> simp

/-- Method `pagarDeuda` keeps the procedures and the citizens. -/
theorem pagarDeuda_resto (s : DatosDemo) (i : Ident) :
    (pagarDeuda s i).2.tramites = s.tramites ∧ (pagarDeuda s i).2.ciudadanos = s.ciudadanos := by
  unfold pagarDeuda
  split <;> simp

/-- Method `crearPlanPagos` keeps the procedures and the citizens. -/
theorem crearPlanPagos_resto (s : DatosDemo) (i : Ident) (n : Int) :
    (crearPlanPagos s i n).2.tramites = s.tramites ∧
    (crearPlanPagos s i n).2.ciudadanos = s.ciudadanos := by
  unfold crearPlanPagos
  split
  · simp
  · split <;> simp

/-- Method `registrarTramite` either fails and keeps the store, or appends one procedure with
the next id, estado `PENDIENTE`, the looked-up amount and a one-entry `historial`. -/
theorem registrarTramite_tramites (s : DatosDemo) (e : EntornoTramite) (d : DatosTramite) :
    ((registrarTramite s e d).2 = s ∧ (registrarTramite s e d).1.success = false) ∨
    (∃ p mensaje, registrarTramite s e d =
        (.exito p mensaje, { s with tramites := s.tramites ++ [p] }) ∧
      p.id = (mathMax (s.tramites.map (fun t => t.id))).mas1 ∧
      p.estado = "PENDIENTE" ∧
      p.monto_pendiente = calcularMontoTramite p.tipo ∧
      ∃ entrada, p.historial = some [entrada] ∧ entrada.estado_nuevo = "PENDIENTE") := by
  unfold registrarTramite
  split
  · left; simp [Resultado.success]
  · right
    exact ⟨_, _, rfl, rfl, rfl, rfl, _, rfl, rfl⟩

/-- A call keeps the list of procedure ids or appends the next id to it. -/
theorem paso_ids (s t : DatosDemo) (h : Paso s t) :
    t.tramites.map (fun x => x.id) = s.tramites.map (fun x => x.id) ∨
    t.tramites.map (fun x => x.id) =
      s.tramites.map (fun x => x.id) ++ [(mathMax (s.tramites.map (fun x => x.id))).mas1] := by
  cases h with
  | ciudadano ahora datos => left; rw [(registrarCiudadano_resto s ahora datos).1]
  | tramite e datos =>
    rcases registrarTramite_tramites s e datos with ⟨h, _⟩ | ⟨p, m, h, hid, _⟩
    · left; rw [h]
    · right; rw [h]; simp [hid]
  | cancelar ahora i => left; exact (cancelarTramite_ids s ahora i).1
  | pago e d => left; exact (procesarPago_ids s e d).1
  | deuda i => left; rw [(pagarDeuda_resto s i).1]
  | plan i n => left; rw [(crearPlanPagos_resto s i n).1]

/-- A call keeps a procedure with id `j` that has a `historial`. -/
theorem paso_conserva (s t : DatosDemo) (h : Paso s t) (j : Ident)
    (hq : ∃ q ∈ s.tramites, q.id = j ∧ q.historial.isSome = true) :
    ∃ q ∈ t.tramites, q.id = j ∧ q.historial.isSome = true := by
  cases h with
  | ciudadano ahora datos => rw [(registrarCiudadano_resto s ahora datos).1]; exact hq
  | tramite e datos =>
    rcases registrarTramite_tramites s e datos with ⟨h, _⟩ | ⟨p, m, h, _⟩
    · rw [h]; exact hq
    · rw [h]
      obtain ⟨q, hq1, hq2⟩ := hq
      exact ⟨q, by simp [hq1], hq2⟩
  | cancelar ahora i => exact cancelarTramite_conserva s ahora i j hq
  | pago e d => exact procesarPago_conserva s e d j hq
  | deuda i => rw [(pagarDeuda_resto s i).1]; exact hq
  | plan i n => rw [(crearPlanPagos_resto s i n).1]; exact hq

/-- A call preserves the well-formedness of the procedure ids. -/
theorem paso_idsBien (s t : DatosDemo) (h : Paso s t)
    (hs : IdsBien (s.tramites.map (fun x => x.id))) : IdsBien (t.tramites.map (fun x => x.id)) := by
  rcases paso_ids s t h with h | h
  · rw [h]; exact hs
  · rw [h]
    obtain ⟨hne, hent, hnd⟩ := hs
    obtain ⟨⟨z, hz⟩, hnew⟩ := id_nuevo _ hent hne
    refine ⟨by simp, ?_, ?_⟩
    · intro x hx
      rcases List.mem_append.mp hx with hx | hx
      · exact hent x hx
      · simp at hx; exact ⟨z, by rw [hx, hz]⟩
    · rw [List.nodup_append]
      refine ⟨hnd, List.nodup_singleton _, ?_⟩
      intro a ha hb
      simp at hb
      subst hb
      exact hnew ha

/-- A sequence of calls preserves the well-formedness of the procedure ids. -/
theorem pasos_idsBien (s t : DatosDemo) (h : Pasos s t)
    (hs : IdsBien (s.tramites.map (fun x => x.id))) : IdsBien (t.tramites.map (fun x => x.id)) := by
  induction h with
  | nada => exact hs
  | mas _ hp ih => exact paso_idsBien _ _ hp ih

/-- A sequence of calls keeps a procedure with id `j` that has a `historial`. -/
theorem pasos_conserva (s t : DatosDemo) (h : Pasos s t) (j : Ident)
    (hq : ∃ q ∈ s.tramites, q.id = j ∧ q.historial.isSome = true) :
    ∃ q ∈ t.tramites, q.id = j ∧ q.historial.isSome = true := by
  induction h with
  | nada => exact hq
  | mas _ hp ih => exact paso_conserva _ _ hp j ih

/-- In every reachable store the procedure ids are integers and pairwise distinct. -/
theorem alcanzable_idsBien (s : DatosDemo) (h : Alcanzable s) :
    IdsBien (s.tramites.map (fun x => x.id)) := by
  apply pasos_idsBien _ _ h
  refine ⟨by decide, ?_, by decide⟩
  intro x hx
  simp [inicializarDatosDemo] at hx
  rcases hx with rfl | rfl
  · exact ⟨1, rfl⟩
  · exact ⟨2, rfl⟩

/-- With pairwise distinct ids, no other procedure of the list has the id of `q`. -/
theorem nodup_descompone (antes despues : List Tramite) (q : Tramite)
    (hnd : ((antes ++ q :: despues).map (fun t => t.id)).Nodup) :
    ∀ t ∈ antes ++ despues, t.id ≠ q.id := by
  intro t ht hid
  rw [List.map_append, List.map_cons, List.nodup_append] at hnd
  obtain ⟨_, h2, h3⟩ := hnd
  rcases List.mem_append.mp ht with ht | ht
  · exact h3 (List.mem_map_of_mem (fun t => t.id) ht) (by simp [hid])
  · rw [List.nodup_cons] at h2
    exact h2.1 (by rw [← hid]; exact List.mem_map_of_mem (fun t => t.id) ht)

/-- An approved valid payment for a procedure `q` that has a `historial`, in a store with
pairwise distinct ids: success, amount zeroed, one entry appended, nothing else changed. -/
theorem procesarPago_con_historial (s : DatosDemo) (e : EntornoPago) (d : DatosPago) (m : Int)
    (q : Tramite) (h : List EntradaHistorial)
    (hnd : (s.tramites.map (fun t => t.id)).Nodup) (hq : q ∈ s.tramites)
    (hh : q.historial = some h) (hid : d.expedienteId = some q.id)
    (hmetodo : presente d.metodo = true) (hmonto : d.monto = some m) (hpos : 0 < m)
    (haprueba : pasarelaAprueba e.aleatorioPasarela = true) :
    ∃ antes despues,
      s.tramites = antes ++ q :: despues ∧ (∀ t ∈ antes ++ despues, t.id ≠ q.id) ∧
      procesarPago s e d =
        (.exito
          { comprobante := generarComprobante e.ahoraMs e.aleatorioComprobante
            fecha := e.fechaRespuesta
            monto := some m } "Pago procesado exitosamente",
          { s with tramites := antes ++
              { q with
                monto_pendiente := .centimos 0
                historial := some (h ++ [
                  { estado_nuevo := "EN_REVISION"
                    fecha := e.fechaHistorial
                    razon := "Pago confirmado - En revisión" }]) } :: despues }) := by
  obtain ⟨antes, despues, hl⟩ := List.append_of_mem hq
  have hotros := nodup_descompone antes despues q (by rw [← hl]; exact hnd)
  have hant : ∀ y ∈ antes, coincideExpediente d.expedienteId y = false := by
    intro y hy
    have := hotros y (by simp [hy])
    simp [coincideExpediente, hid, this]
  have hx : coincideExpediente d.expedienteId q = true := by
    simp [coincideExpediente, hid]
  have hv : montoNoPositivo d.monto = false := by
    simp [hmonto, montoNoPositivo]; omega
  refine ⟨antes, despues, hl, hotros, ?_⟩
  have hf := find_de_descompone _ antes despues q hant hx
  unfold procesarPago
  simp only [hmetodo, hv, haprueba, Bool.not_true, Bool.or_self, Bool.false_eq_true, if_false]
  rw [hl, hf]
  simp only [hh]
  rw [modificarPrimero_descompone _ _ _ _ _ hant hx]
  rw [modificarPrimero_descompone _ _ _ _ _ hant (by simpa [coincideExpediente] using hx)]
  simp [hmonto]


/-! ## Cancellation -/

/-- C1 (code defect): on the store built by the constructor, `cancelarTramite(2)` reports
failure (the `TypeError` of `historial.push`, procedure 2 having no `historial`), yet the
estado of procedure 2 has gone from `PENDIENTE` to `CANCELADO`: the returned store differs
from the store before the call, so the call is not atomic. -/
theorem cancelarTramite_demo_no_atomico (ahora : String) :
    (cancelarTramite inicializarDatosDemo ahora (.entero 2)).1 = .fallo errorHistorialIndefinido ∧
    ((cancelarTramite inicializarDatosDemo ahora (.entero 2)).2.tramites.map (fun t => t.estado))
      = ["EN_REVISION", "CANCELADO"] ∧
    (inicializarDatosDemo.tramites.map (fun t => t.estado)) = ["EN_REVISION", "PENDIENTE"] ∧
    (cancelarTramite inicializarDatosDemo ahora (.entero 2)).2 ≠ inicializarDatosDemo := by
  refine ⟨rfl, rfl, rfl, ?_⟩
  intro h
  have h1 : (cancelarTramite inicializarDatosDemo ahora (.entero 2)).2.tramites.map
      (fun t => t.estado) = ["EN_REVISION", "CANCELADO"] := rfl
  rw [h] at h1
  exact absurd h1 (by decide)

/-! ## Payments -/

/-- C2: for every store and every payment request with a method present and an amount
greater than zero, when the simulated gateway declines, `procesarPago` returns the failure
result "Pago rechazado por el banco" and the store after the call is the store before it. -/
theorem procesarPago_rechazado (s : DatosDemo) (e : EntornoPago) (d : DatosPago) (m : Int)
    (hmetodo : presente d.metodo = true) (hmonto : d.monto = some m) (hpos : 0 < m)
    (hrechaza : pasarelaAprueba e.aleatorioPasarela = false) :
    procesarPago s e d = (.fallo "Pago rechazado por el banco", s) := by
  have hv : montoNoPositivo d.monto = false := by
    simp [hmonto, montoNoPositivo]; omega
  simp [procesarPago, hmetodo, hv, hrechaza]

/-- Witness of C2: a declined payment of 245.00 on the demo store. -/
theorem procesarPago_rechazado_witness :
    procesarPago inicializarDatosDemo ejemploPagoRechazado
        { metodo := some "tarjeta", monto := some 24500, expedienteId := some (.entero 2) }
      = (.fallo "Pago rechazado por el banco", inicializarDatosDemo) :=
  procesarPago_rechazado inicializarDatosDemo ejemploPagoRechazado _ 24500
    (by decide) rfl (by decide) (by decide)

/-- C3: let `p` be the procedure created by a successful `registrarTramite` on a reachable
store, and `s2` any store reached afterwards.  A payment request targeting `p.id`, with a
method present and an amount greater than zero, approved by the gateway, returns
`success: true` carrying the amount; the store has exactly one procedure `q` with that id,
whose `monto_pendiente` becomes 0 and whose `historial` gains exactly one entry; every
other procedure, every debt and every citizen is unchanged. -/
theorem procesarPago_tramite_registrado (s0 s1 s2 : DatosDemo) (et : EntornoTramite)
    (datos : DatosTramite) (p : Tramite) (mensaje : String) (e : EntornoPago) (d : DatosPago)
    (m : Int)
    (halc : Alcanzable s0)
    (hreg : registrarTramite s0 et datos = (.exito p mensaje, s1))
    (hpasos : Pasos s1 s2)
    (hid : d.expedienteId = some p.id)
    (hmetodo : presente d.metodo = true) (hmonto : d.monto = some m) (hpos : 0 < m)
    (haprueba : pasarelaAprueba e.aleatorioPasarela = true) :
    ∃ antes despues q h,
      s2.tramites = antes ++ q :: despues ∧ q.id = p.id ∧
      (∀ t ∈ antes ++ despues, t.id ≠ p.id) ∧ q.historial = some h ∧
      procesarPago s2 e d =
        (.exito
          { comprobante := generarComprobante e.ahoraMs e.aleatorioComprobante
            fecha := e.fechaRespuesta
            monto := some m } "Pago procesado exitosamente",
          { s2 with tramites := antes ++
              { q with
                monto_pendiente := .centimos 0
                historial := some (h ++ [
                  { estado_nuevo := "EN_REVISION"
                    fecha := e.fechaHistorial
                    razon := "Pago confirmado - En revisión" }]) } :: despues }) := by
  have hs1 : s1 = { s0 with tramites := s0.tramites ++ [p] } ∧ p.historial.isSome = true := by
    rcases registrarTramite_tramites s0 et datos with ⟨_, hf⟩ | ⟨p2, m2, h, _, _, _, en, hen, _⟩
    · rw [hreg] at hf; simp [Resultado.success] at hf
    · rw [hreg] at h
      simp only [Prod.mk.injEq, Resultado.exito.injEq] at h
      obtain ⟨⟨hp, _⟩, hs⟩ := h
      subst hp
      exact ⟨hs, by simp [hen]⟩
  have halc1 : Alcanzable s1 := by
    have := Pasos.mas halc (Paso.tramite s0 et datos)
    rw [hreg] at this
    exact this
  have hbien := pasos_idsBien s1 s2 hpasos (alcanzable_idsBien s1 halc1)
  obtain ⟨q, hq, hqid, hqh⟩ := pasos_conserva s1 s2 hpasos p.id
    ⟨p, by rw [hs1.1]; simp, rfl, hs1.2⟩
  obtain ⟨h, hh⟩ := Option.isSome_iff_exists.mp hqh
  obtain ⟨antes, despues, hl, hotros, hpay⟩ := procesarPago_con_historial s2 e d m q h
    hbien.2.2 hq hh (by rw [hid, hqid]) hmetodo hmonto hpos haprueba
  exact ⟨antes, despues, q, h, hl, hqid, by rw [← hqid]; exact hotros, hh, hpay⟩

/-- Witness of C3: the procedure of type `LICENCIA_FUNCIONAMIENTO` registered on the demo
store gets id 3 and is settled by an approved payment of 245.00. -/
theorem procesarPago_tramite_registrado_witness :
    (procesarPago (registrarTramite inicializarDatosDemo ejemploEntornoTramite ejemploDatosTramite).2
        ejemploPagoAprobado
        { metodo := some "tarjeta", monto := some 24500, expedienteId := some (.entero 3) }).1.success
      = true := by
  obtain ⟨_, _, _, _, _, _, _, _, h⟩ := procesarPago_tramite_registrado inicializarDatosDemo
    (registrarTramite inicializarDatosDemo ejemploEntornoTramite ejemploDatosTramite).2
    (registrarTramite inicializarDatosDemo ejemploEntornoTramite ejemploDatosTramite).2
    ejemploEntornoTramite ejemploDatosTramite _ _ ejemploPagoAprobado
    { metodo := some "tarjeta", monto := some 24500, expedienteId := some (.entero 3) } 24500
    (Pasos.nada _) rfl (Pasos.nada _) rfl (by decide) rfl (by decide) (by decide)
  rw [h]
  rfl

/-- C4 (code defect): on the store built by the constructor, a payment of 245.00 for
procedure 1 with a method present, approved by the gateway, returns `success: false` (the
`TypeError` of `historial.push`), although `monto_pendiente` of procedure 1 has been set to
0; no history entry is appended. -/
theorem procesarPago_demo_fallo_tras_saldar :
    pasarelaAprueba ejemploPagoAprobado.aleatorioPasarela = true ∧
    (procesarPago inicializarDatosDemo ejemploPagoAprobado
        { metodo := some "tarjeta", monto := some 24500, expedienteId := some (.entero 1) }).1
      = .fallo errorHistorialIndefinido ∧
    (procesarPago inicializarDatosDemo ejemploPagoAprobado
        { metodo := some "tarjeta", monto := some 24500, expedienteId := some (.entero 1) }).2.tramites.map
        (fun t => (t.id, t.monto_pendiente, t.historial))
      = [(.entero 1, .centimos 0, none), (.entero 2, .centimos 38000, none)] := by
  decide

/-- Counterexample of C5: on the demo store no procedure has id 99, and an approved
payment for `expedienteId` 99 returns `success: true`. -/
theorem procesarPago_id_desconocido_exito :
    inicializarDatosDemo.tramites.find? (coincideExpediente (some (.entero 99))) = none ∧
    (procesarPago inicializarDatosDemo ejemploPagoAprobado
        { metodo := some "tarjeta", monto := some 24500, expedienteId := some (.entero 99) }).1.success
      = true := by
  decide

/-- C5 as amended: for a payment request whose amount is present (`m` céntimos) and whose
`expedienteId` matches no stored procedure, `procesarPago` leaves the store unchanged and
reports no not-found failure: it returns `success: true` exactly when the method is
present, the amount is greater than zero and the gateway approves, and then the result
carries the receipt, the timestamp and the amount. -/
theorem procesarPago_sin_tramite (s : DatosDemo) (e : EntornoPago) (d : DatosPago) (m : Int)
    (hmonto : d.monto = some m)
    (hno : s.tramites.find? (coincideExpediente d.expedienteId) = none) :
    (procesarPago s e d).2 = s ∧
    ((procesarPago s e d).1.success = true ↔
      (presente d.metodo = true ∧ 0 < m ∧ pasarelaAprueba e.aleatorioPasarela = true)) ∧
    ((procesarPago s e d).1.success = true →
      (procesarPago s e d).1 = .exito
        { comprobante := generarComprobante e.ahoraMs e.aleatorioComprobante
          fecha := e.fechaRespuesta
          monto := some m } "Pago procesado exitosamente") := by
  unfold procesarPago
  rw [hmonto]
  by_cases hpos : 0 < m
  · have hv : montoNoPositivo (some m) = false := by
      simp [montoNoPositivo]; omega
    cases hm : presente d.metodo <;> cases hp : pasarelaAprueba e.aleatorioPasarela <;>
      simp [hno, hv, hpos, Resultado.success]
  · have hv : montoNoPositivo (some m) = true := by
      simp [montoNoPositivo]; omega
    cases hm : presente d.metodo <;> cases hp : pasarelaAprueba e.aleatorioPasarela <;>
      simp [hno, hv, hpos, Resultado.success]

/-- Witness of C5 as amended: the demo store, an amount of 245.00 and `expedienteId` 99. -/
theorem procesarPago_sin_tramite_witness :
    (procesarPago inicializarDatosDemo ejemploPagoAprobado
        { metodo := some "tarjeta", monto := some 24500, expedienteId := some (.entero 99) }).2
      = inicializarDatosDemo ∧
    (procesarPago inicializarDatosDemo ejemploPagoAprobado
        { metodo := some "tarjeta", monto := some 24500, expedienteId := some (.entero 99) }).1.success
      = true :=
  ⟨(procesarPago_sin_tramite inicializarDatosDemo ejemploPagoAprobado _ 24500 rfl
      (by decide)).1,
   (procesarPago_sin_tramite inicializarDatosDemo ejemploPagoAprobado _ 24500 rfl
      (by decide)).2.1.mpr ⟨by decide, by decide, by decide⟩⟩

/-- C6 (code defect): a request with a method and no amount passes the validation
(`undefined <= 0` is false): on the store where procedure 3 was registered with
245.00 pending, the approved request returns `success: true` and sets `monto_pendiente`
of procedure 3 to 0. -/
theorem procesarPago_monto_ausente_aceptado :
    (registrarTramite inicializarDatosDemo ejemploEntornoTramite ejemploDatosTramite).2.tramites.map
        (fun t => (t.id, t.monto_pendiente))
      = [(.entero 1, .centimos 24500), (.entero 2, .centimos 38000), (.entero 3, .centimos 24500)] ∧
    (procesarPago (registrarTramite inicializarDatosDemo ejemploEntornoTramite ejemploDatosTramite).2
        ejemploPagoAprobado
        { metodo := some "tarjeta", monto := none, expedienteId := some (.entero 3) }).1.success = true ∧
    (procesarPago (registrarTramite inicializarDatosDemo ejemploEntornoTramite ejemploDatosTramite).2
        ejemploPagoAprobado
        { metodo := some "tarjeta", monto := none, expedienteId := some (.entero 3) }).2.tramites.map
        (fun t => (t.id, t.monto_pendiente))
      = [(.entero 1, .centimos 24500), (.entero 2, .centimos 38000), (.entero 3, .centimos 0)] := by
  decide

/-! ## Debts -/

/-- Counterexample of C7: on the demo store, after `pagarDeuda(1)` debt 1 is `PAGADO`, and a
second `pagarDeuda(1)` reports success. -/
theorem pagarDeuda_dos_veces_exito :
    ((pagarDeuda inicializarDatosDemo (.entero 1)).2.deudas.map (fun d => (d.id, d.estado))
      = [(.entero 1, "PAGADO"), (.entero 2, "PENDIENTE")]) ∧
    (pagarDeuda (pagarDeuda inicializarDatosDemo (.entero 1)).2 (.entero 1)).1.success = true := by
  decide

/-- C7 as amended: `pagarDeuda` does not look at the estado of the debt.  It reports
success exactly when some debt has the id; on failure the store is unchanged; on success
the first debt with the id gets estado `PAGADO` whatever its estado was and nothing else
changes, and a second call on the same id reports success again and changes nothing. -/
theorem pagarDeuda_sin_control_de_estado (s : DatosDemo) (deudaId : Ident) :
    ((pagarDeuda s deudaId).1.success = true ↔ ∃ d ∈ s.deudas, d.id = deudaId) ∧
    ((pagarDeuda s deudaId).1.success = false → (pagarDeuda s deudaId).2 = s) ∧
    ((pagarDeuda s deudaId).1.success = true →
      (∃ antes d despues, s.deudas = antes ++ d :: despues ∧ (∀ x ∈ antes, x.id ≠ deudaId) ∧
        d.id = deudaId ∧
        (pagarDeuda s deudaId).2 =
          { s with deudas := antes ++ { d with estado := "PAGADO" } :: despues }) ∧
      (pagarDeuda (pagarDeuda s deudaId).2 deudaId).1.success = true ∧
      (pagarDeuda (pagarDeuda s deudaId).2 deudaId).2 = (pagarDeuda s deudaId).2) := by
  cases hf : s.deudas.find? (fun d => decide (d.id = deudaId)) with
  | none =>
    have hn := (find_ninguno _ _).mp hf
    refine ⟨?_, ?_, ?_⟩
    · simp only [pagarDeuda, hf, Resultado.success]
      constructor
      · intro h; cases h
      · rintro ⟨d, hd, hid⟩
        have := hn d hd
        simp [hid] at this
    · intro _; simp [pagarDeuda, hf]
    · intro h; simp [pagarDeuda, hf, Resultado.success] at h
  | some d =>
    obtain ⟨antes, despues, hl, hant, hd⟩ := find_descompone _ _ _ hf
    have hid : d.id = deudaId := by simpa using hd
    have hant2 : ∀ x ∈ antes, x.id ≠ deudaId := fun x hx => by simpa using hant x hx
    have h1 : pagarDeuda s deudaId = (.exito () "Deuda pagada exitosamente",
        { s with deudas := antes ++ { d with estado := "PAGADO" } :: despues }) := by
      simp only [pagarDeuda, hf]
      rw [hl, modificarPrimero_descompone _ _ _ _ _ hant hd]
    have hd2 : (fun x : Deuda => decide (x.id = deudaId)) { d with estado := "PAGADO" } = true := by
      simpa using hid
    have h2 : pagarDeuda { s with deudas := antes ++ { d with estado := "PAGADO" } :: despues }
        deudaId = (.exito () "Deuda pagada exitosamente",
        { s with deudas := antes ++ { d with estado := "PAGADO" } :: despues }) := by
      simp only [pagarDeuda, find_de_descompone _ _ _ _ hant hd2]
      rw [modificarPrimero_descompone _ _ _ _ _ hant hd2]
    refine ⟨?_, ?_, ?_⟩
    · rw [h1]
      simp only [Resultado.success, true_iff]
      exact ⟨d, by simp [hl], hid⟩
    · rw [h1]; intro h; simp [Resultado.success] at h
    · intro _
      refine ⟨⟨antes, d, despues, hl, hant2, hid, by rw [h1]⟩, ?_, ?_⟩
      · rw [h1]; simp only [h2, Resultado.success]
      · rw [h1]; simp only [h2]

/-- Witness of C7 as amended: debt 1 of the demo store. -/
theorem pagarDeuda_sin_control_de_estado_witness :
    (pagarDeuda inicializarDatosDemo (.entero 1)).1.success = true ∧
    (pagarDeuda (pagarDeuda inicializarDatosDemo (.entero 1)).2 (.entero 1)).1.success = true :=
  ⟨by decide,
   ((pagarDeuda_sin_control_de_estado inicializarDatosDemo (.entero 1)).2.2 (by decide)).2.1⟩

/-- What `crearPlanPagos` returns when the lookup finds the debt `d`. -/
theorem crearPlanPagos_encontrada (s : DatosDemo) (deudaId : Ident) (d : Deuda) (n : Int)
    (hd : s.deudas.find? (fun x => decide (x.id = deudaId)) = some d) :
    (¬ (3 ≤ n ∧ n ≤ 12) →
      crearPlanPagos s deudaId n = (.fallo "El plan debe ser entre 3 y 12 cuotas", s)) ∧
    ((3 ≤ n ∧ n ≤ 12) →
      ∃ antes despues, s.deudas = antes ++ d :: despues ∧ (∀ x ∈ antes, x.id ≠ deudaId) ∧
        crearPlanPagos s deudaId n =
          (.exito { numeroCuotas := n, montoCuota := montoCuota d.monto_total n.toNat,
                    montoTotal := d.monto_total } "Plan de pagos creado exitosamente",
            { s with deudas := antes ++ { d with estado := "FRACCIONADO" } :: despues })) := by
  constructor
  · intro hn
    have : n < 3 ∨ n > 12 := by omega
    simp [crearPlanPagos, hd, this]
  · intro hn
    obtain ⟨antes, despues, hl, hant, hx⟩ := find_descompone _ _ _ hd
    refine ⟨antes, despues, hl, fun x hx => by simpa using hant x hx, ?_⟩
    have : ¬ (n < 3 ∨ n > 12) := by omega
    simp only [crearPlanPagos, hd, this, if_false]
    rw [hl, modificarPrimero_descompone _ _ _ _ _ hant hx]

/-- C8: for every store in which the lookup of `deudaId` finds a debt `d` with estado
`PENDIENTE`, and every integer `numeroCuotas`, `crearPlanPagos` succeeds if and only if
`3 <= numeroCuotas <= 12`; when it rejects the store is unchanged, and when it accepts the
estado of `d` becomes `FRACCIONADO` and nothing else changes. -/
theorem crearPlanPagos_rango (s : DatosDemo) (deudaId : Ident) (d : Deuda) (n : Int)
    (hd : s.deudas.find? (fun x => decide (x.id = deudaId)) = some d)
    (_hpend : d.estado = "PENDIENTE") :
    ((crearPlanPagos s deudaId n).1.success = true ↔ 3 ≤ n ∧ n ≤ 12) ∧
    (¬ (3 ≤ n ∧ n ≤ 12) → (crearPlanPagos s deudaId n).2 = s) ∧
    (3 ≤ n ∧ n ≤ 12 →
      ∃ antes despues, s.deudas = antes ++ d :: despues ∧ (∀ x ∈ antes, x.id ≠ deudaId) ∧
        (crearPlanPagos s deudaId n).2 =
          { s with deudas := antes ++ { d with estado := "FRACCIONADO" } :: despues }) := by
  obtain ⟨hmal, hbien⟩ := crearPlanPagos_encontrada s deudaId d n hd
  refine ⟨?_, ?_, ?_⟩
  · by_cases hn : 3 ≤ n ∧ n ≤ 12
    · obtain ⟨antes, despues, _, _, h⟩ := hbien hn
      simp [h, Resultado.success, hn]
    · simp [hmal hn, Resultado.success, hn]
  · intro hn; rw [hmal hn]
  · intro hn
    obtain ⟨antes, despues, hl, hant, h⟩ := hbien hn
    exact ⟨antes, despues, hl, hant, by rw [h]⟩

/-- Witness of C8: debt 1 of the demo store with 3, 12, 2 and 13 installments. -/
theorem crearPlanPagos_rango_witness :
    ((crearPlanPagos inicializarDatosDemo (.entero 1) 3).1.success = true ↔
        (3 : Int) ≤ 3 ∧ (3 : Int) ≤ 12) ∧
    ((crearPlanPagos inicializarDatosDemo (.entero 1) 12).1.success = true ↔
        (3 : Int) ≤ 12 ∧ (12 : Int) ≤ 12) ∧
    ((crearPlanPagos inicializarDatosDemo (.entero 1) 2).1.success = true ↔
        (3 : Int) ≤ 2 ∧ (2 : Int) ≤ 12) ∧
    ((crearPlanPagos inicializarDatosDemo (.entero 1) 13).1.success = true ↔
        (3 : Int) ≤ 13 ∧ (13 : Int) ≤ 12) :=
  ⟨(crearPlanPagos_rango inicializarDatosDemo (.entero 1) _ 3 rfl rfl).1,
   (crearPlanPagos_rango inicializarDatosDemo (.entero 1) _ 12 rfl rfl).1,
   (crearPlanPagos_rango inicializarDatosDemo (.entero 1) _ 2 rfl rfl).1,
   (crearPlanPagos_rango inicializarDatosDemo (.entero 1) _ 13 rfl rfl).1⟩

/-- Counterexample of C9: on the demo store, after a plan of 3 installments debt 1 is
`FRACCIONADO` and a second plan (6 installments) is accepted; a plan is also accepted for
debt 2 once it is `PAGADO`. -/
theorem crearPlanPagos_segundo_plan_aceptado :
    ((crearPlanPagos inicializarDatosDemo (.entero 1) 3).2.deudas.map (fun d => (d.id, d.estado))
      = [(.entero 1, "FRACCIONADO"), (.entero 2, "PENDIENTE")]) ∧
    (crearPlanPagos (crearPlanPagos inicializarDatosDemo (.entero 1) 3).2 (.entero 1) 6).1.success
      = true ∧
    (crearPlanPagos (pagarDeuda inicializarDatosDemo (.entero 2)).2 (.entero 2) 4).1.success
      = true := by
  decide

/-- C9 as amended: `crearPlanPagos` does not look at the estado of the debt.  For a debt
found by the lookup whose estado is not `PENDIENTE`, it succeeds if and only if
`3 <= numeroCuotas <= 12`, leaves the store unchanged when it rejects, sets the estado to
`FRACCIONADO` when it accepts, and after an accepted plan every further plan with 3 to 12
installments on the same debt id is accepted as well. -/
theorem crearPlanPagos_sin_control_de_estado (s : DatosDemo) (deudaId : Ident) (d : Deuda)
    (n : Int) (hd : s.deudas.find? (fun x => decide (x.id = deudaId)) = some d)
    (_hest : d.estado ≠ "PENDIENTE") :
    ((crearPlanPagos s deudaId n).1.success = true ↔ 3 ≤ n ∧ n ≤ 12) ∧
    (¬ (3 ≤ n ∧ n ≤ 12) → (crearPlanPagos s deudaId n).2 = s) ∧
    (3 ≤ n ∧ n ≤ 12 →
      (∃ antes despues, s.deudas = antes ++ d :: despues ∧ (∀ x ∈ antes, x.id ≠ deudaId) ∧
        (crearPlanPagos s deudaId n).2 =
          { s with deudas := antes ++ { d with estado := "FRACCIONADO" } :: despues }) ∧
      ∀ k : Int, 3 ≤ k ∧ k ≤ 12 →
        (crearPlanPagos (crearPlanPagos s deudaId n).2 deudaId k).1.success = true) := by
  obtain ⟨hmal, hbien⟩ := crearPlanPagos_encontrada s deudaId d n hd
  refine ⟨?_, ?_, ?_⟩
  · by_cases hn : 3 ≤ n ∧ n ≤ 12
    · obtain ⟨antes, despues, _, _, h⟩ := hbien hn
      simp [h, Resultado.success, hn]
    · simp [hmal hn, Resultado.success, hn]
  · intro hn; rw [hmal hn]
  · intro hn
    obtain ⟨antes, despues, hl, hant, h⟩ := hbien hn
    refine ⟨⟨antes, despues, hl, hant, by rw [h]⟩, ?_⟩
    intro k hk
    obtain ⟨_, _, _, _, hx⟩ := find_descompone _ _ _ hd
    have hant2 : ∀ y ∈ antes, (fun x : Deuda => decide (x.id = deudaId)) y = false :=
      fun y hy => by simpa using hant y hy
    have hx2 : (fun x : Deuda => decide (x.id = deudaId)) { d with estado := "FRACCIONADO" }
        = true := by simpa using hx
    have hf2 := find_de_descompone _ antes despues _ hant2 hx2
    rw [h]
    obtain ⟨_, _, _, _, h2⟩ := (crearPlanPagos_encontrada
      { s with deudas := antes ++ { d with estado := "FRACCIONADO" } :: despues }
      deudaId _ k hf2).2 hk
    rw [h2]; rfl

/-- Witness of C9 as amended: debt 2 of the demo store once paid, 4 installments. -/
theorem crearPlanPagos_sin_control_de_estado_witness :
    ((crearPlanPagos (pagarDeuda inicializarDatosDemo (.entero 2)).2 (.entero 2) 4).1.success = true
      ↔ (3 : Int) ≤ 4 ∧ (4 : Int) ≤ 12) :=
  (crearPlanPagos_sin_control_de_estado (pagarDeuda inicializarDatosDemo (.entero 2)).2
    (.entero 2) _ 4 rfl (by decide)).1

/-- Counterexample of C10: on the demo store the plan of 3 installments for debt 2
(total 280.00) carries the single installment amount 93.33, and 3 installments of 93.33
sum to 279.99, not 280.00. -/
theorem crearPlanPagos_suma_distinta :
    (crearPlanPagos inicializarDatosDemo (.entero 2) 3).1 =
      .exito { numeroCuotas := 3, montoCuota := 9333, montoTotal := 28000 }
        "Plan de pagos creado exitosamente" ∧
    3 * montoCuota 28000 3 = 27999 := by
  decide

/-- C10 as amended: for a debt found by the lookup, with total `T` below `2 ^ 50` céntimos,
and `3 <= n <= 12`, the plan returned by `crearPlanPagos` carries `numeroCuotas = n`,
`montoTotal = T` and one installment amount `montoCuota = (T / n).toFixed(2)` for all `n`
installments (no installment absorbs a remainder); `n * montoCuota` differs from `T` by at
most `n / 2` céntimos.  For `T = 465.00` and `n = 4` the amount is 116.25 and
`4 * 116.25 = 465.00`. -/
theorem crearPlanPagos_cuota_unica (s : DatosDemo) (deudaId : Ident) (d : Deuda) (n : Int)
    (hd : s.deudas.find? (fun x => decide (x.id = deudaId)) = some d)
    (hn : 3 ≤ n ∧ n ≤ 12) (hT : d.monto_total < 2 ^ 50) :
    (crearPlanPagos s deudaId n).1 =
      .exito
        { numeroCuotas := n
          montoCuota := montoCuota d.monto_total n.toNat
          montoTotal := d.monto_total } "Plan de pagos creado exitosamente" ∧
    2 * (n.toNat * montoCuota d.monto_total n.toNat) ≤ 2 * d.monto_total + n.toNat ∧
    2 * d.monto_total ≤ 2 * (n.toNat * montoCuota d.monto_total n.toNat) + n.toNat ∧
    montoCuota 46500 4 = 11625 ∧ 4 * montoCuota 46500 4 = 46500 := by
  obtain ⟨_, _, _, _, h⟩ := (crearPlanPagos_encontrada s deudaId d n hd).2 hn
  obtain ⟨h1, h2⟩ := montoCuota_cota d.monto_total n.toNat (by omega) hT
  exact ⟨by rw [h], h1, h2, by decide, by decide⟩

/-- Witness of C10 as amended: debt 1 of the demo store (465.00) in 4 installments. -/
theorem crearPlanPagos_cuota_unica_witness :
    (crearPlanPagos inicializarDatosDemo (.entero 1) 4).1 =
      .exito { numeroCuotas := 4, montoCuota := 11625, montoTotal := 46500 }
        "Plan de pagos creado exitosamente" :=
  (crearPlanPagos_cuota_unica inicializarDatosDemo (.entero 1) _ 4 rfl (by decide)
    (by decide)).1

/-! ## Rounding of the installment -/

/-- The rounding of the specification is the floor of `total / numeroCuotas + 1 / 2`
in exact rational arithmetic. -/
theorem cuotaMediaArriba_piso (T n : Nat) (hn : 0 < n) :
    ((cuotaMediaArriba T n : Nat) : Int) = ⌊(T : ℚ) / n + 1 / 2⌋ := by
  have hq : (T : ℚ) / n + 1 / 2 = (((2 * T + n : Nat) : Int) : ℚ) / ((2 * n : Nat) : ℚ) := by
    have : (n : ℚ) ≠ 0 := by exact_mod_cast hn.ne'
    push_cast
    field_simp
    ring
  rw [hq, Rat.floor_intCast_div_natCast]
  unfold cuotaMediaArriba
  push_cast
  rfl

/-- Off the half-céntimo ties the installment is the half-up rounding of the exact
quotient; on a tie it is that rounding or one céntimo less. -/
theorem montoCuota_mediaArriba (T n : Nat) (hn : 0 < n) (hT : T < 2 ^ 50) :
    ((2 * T + n) % (2 * n) ≠ 0 → montoCuota T n = cuotaMediaArriba T n) ∧
    (montoCuota T n = cuotaMediaArriba T n ∨ montoCuota T n + 1 = cuotaMediaArriba T n) := by
  obtain ⟨h1, h2⟩ := montoCuota_cota T n hn hT
  have hdm := Nat.div_add_mod (2 * T + n) (2 * n)
  have hlt := Nat.mod_lt (2 * T + n) (show 0 < 2 * n by omega)
  have hle : montoCuota T n ≤ cuotaMediaArriba T n := by
    unfold cuotaMediaArriba
    rw [Nat.le_div_iff_mul_le (by omega)]
    calc montoCuota T n * (2 * n) = 2 * (n * montoCuota T n) := by ring
      _ ≤ 2 * T + n := h1
  have hge : cuotaMediaArriba T n ≤ montoCuota T n + 1 := by
    unfold cuotaMediaArriba
    have : (2 * T + n) / (2 * n) < montoCuota T n + 2 := by
      rw [Nat.div_lt_iff_lt_mul (by omega)]
      calc 2 * T + n ≤ 2 * (n * montoCuota T n) + n + n := by omega
        _ < (montoCuota T n + 2) * (2 * n) := by nlinarith
    omega
  constructor
  · intro hr
    have hlt2 : cuotaMediaArriba T n < montoCuota T n + 1 := by
      unfold cuotaMediaArriba
      rw [Nat.div_lt_iff_lt_mul (by omega)]
      have e1 : (montoCuota T n + 1) * (2 * n) = 2 * (n * montoCuota T n) + 2 * n := by ring
      rw [e1]
      by_contra hcon
      have h3 : 2 * T + n = 2 * (n * montoCuota T n) + 2 * n := by omega
      apply hr
      rw [h3, ← e1]
      exact Nat.mul_mod_left _ _
    omega
  · omega

/-- Counterexample of C11: for a debt of 4.02 in 4 installments the plan carries
`montoCuota` 1.00 (the double `4.02 / 4` lies below 1.005), while 4.02 / 4 = 1.005 rounded
half up in exact arithmetic is 1.01. -/
theorem crearPlanPagos_redondeo_bajo_el_empate :
    (crearPlanPagos ejemploDeudaPequena (.entero 1) 4).1 =
      .exito { numeroCuotas := 4, montoCuota := 100, montoTotal := 402 }
        "Plan de pagos creado exitosamente" ∧
    cuotaMediaArriba 402 4 = 101 := by
  decide

/-- C11 as amended: for a debt found by the lookup, with total `T` below `2 ^ 50` céntimos,
and `3 <= n <= 12`, the returned plan has `numeroCuotas = n`, `montoTotal = T`, and a
`montoCuota` that is `T / n` rounded half up in exact arithmetic whenever `T / n` is not
exactly halfway between two céntimos; on such a tie it is that rounding or one céntimo
less. -/
theorem crearPlanPagos_redondeo (s : DatosDemo) (deudaId : Ident) (d : Deuda) (n : Int)
    (hd : s.deudas.find? (fun x => decide (x.id = deudaId)) = some d)
    (hn : 3 ≤ n ∧ n ≤ 12) (hT : d.monto_total < 2 ^ 50) :
    ∃ plan mensaje,
      (crearPlanPagos s deudaId n).1 = .exito plan mensaje ∧
      plan.numeroCuotas = n ∧ plan.montoTotal = d.monto_total ∧
      ((2 * d.monto_total + n.toNat) % (2 * n.toNat) ≠ 0 →
        plan.montoCuota = cuotaMediaArriba d.monto_total n.toNat) ∧
      (plan.montoCuota = cuotaMediaArriba d.monto_total n.toNat ∨
        plan.montoCuota + 1 = cuotaMediaArriba d.monto_total n.toNat) := by
  obtain ⟨_, _, _, _, h⟩ := (crearPlanPagos_encontrada s deudaId d n hd).2 hn
  obtain ⟨h1, h2⟩ := montoCuota_mediaArriba d.monto_total n.toNat (by omega) hT
  exact ⟨_, _, by rw [h], rfl, rfl, h1, h2⟩

/-- Witness of C11 as amended: debt 2 of the demo store (280.00) in 3 installments, not a
tie: the plan carries 93.33. -/
theorem crearPlanPagos_redondeo_witness :
    ∃ plan mensaje,
      (crearPlanPagos inicializarDatosDemo (.entero 2) 3).1 = .exito plan mensaje ∧
      plan.montoCuota = cuotaMediaArriba 28000 3 := by
  obtain ⟨plan, mensaje, h, _, _, h1, _⟩ :=
    crearPlanPagos_redondeo inicializarDatosDemo (.entero 2) _ 3 rfl (by decide) (by decide)
  exact ⟨plan, mensaje, h, h1 (by decide)⟩

/-! ## State machine of a procedure -/

/-- Every procedure is a legal successor of itself. -/
theorem transicionLegal_refl (a : Tramite) : TransicionLegal a a := ⟨rfl, Or.inl rfl⟩

/-- Replacing one element by a related one relates the two lists. -/
theorem forall2_reemplazo (antes despues : List Tramite) (q q2 : Tramite)
    (h : TransicionLegal q q2) :
    List.Forall₂ TransicionLegal (antes ++ q :: despues) (antes ++ q2 :: despues) := by
  apply List.rel_append
  · exact List.forall₂_same.mpr (fun x _ => transicionLegal_refl x)
  · exact List.Forall₂.cons h (List.forall₂_same.mpr (fun x _ => transicionLegal_refl x))

/-- Method `cancelarTramite` moves the found procedure from `PENDIENTE` to `CANCELADO`
or changes no estado. -/
theorem cancelarTramite_transicion (s : DatosDemo) (ahora : String) (i : Ident) :
    List.Forall₂ TransicionLegal s.tramites (cancelarTramite s ahora i).2.tramites := by
  have hrefl : List.Forall₂ TransicionLegal s.tramites s.tramites :=
    List.forall₂_same.mpr (fun x _ => transicionLegal_refl x)
  unfold cancelarTramite
  split
  · exact hrefl
  · rename_i q hf
    split
    · exact hrefl
    · rename_i hpend
      have hq : q.estado = "PENDIENTE" := by simpa using hpend
      obtain ⟨antes, despues, hl, hant, hx⟩ := find_descompone _ _ _ hf
      have h1 := modificarPrimero_descompone (fun t : Tramite => decide (t.id = i))
        (fun t => { t with estado := "CANCELADO" }) antes despues q hant hx
      split
      · simp only
        rw [hl, h1]
        exact forall2_reemplazo _ _ _ _ ⟨rfl, Or.inr (Or.inr (Or.inl ⟨hq, rfl⟩))⟩
      · rename_i h hh
        simp only
        rw [hl, h1, modificarPrimero_descompone _ _ _ _ _ hant (by simpa using hx)]
        exact forall2_reemplazo _ _ _ _ ⟨rfl, Or.inr (Or.inr (Or.inl ⟨hq, rfl⟩))⟩

/-- Method `procesarPago` changes no estado. -/
theorem procesarPago_transicion (s : DatosDemo) (e : EntornoPago) (d : DatosPago) :
    List.Forall₂ TransicionLegal s.tramites (procesarPago s e d).2.tramites := by
  have hrefl : List.Forall₂ TransicionLegal s.tramites s.tramites :=
    List.forall₂_same.mpr (fun x _ => transicionLegal_refl x)
  unfold procesarPago
  split
  · exact hrefl
  · split
    · exact hrefl
    · split
      · exact hrefl
      · rename_i q hf
        obtain ⟨antes, despues, hl, hant, hx⟩ := find_descompone _ _ _ hf
        have h1 := modificarPrimero_descompone (coincideExpediente d.expedienteId)
          (fun t => { t with monto_pendiente := .centimos 0 }) antes despues q hant hx
        split
        · simp only
          rw [hl, h1]
          exact forall2_reemplazo _ _ _ _ ⟨rfl, Or.inl rfl⟩
        · simp only
          rw [hl, h1, modificarPrimero_descompone _ _ _ _ _ hant
            (by simpa [coincideExpediente] using hx)]
          exact forall2_reemplazo _ _ _ _ ⟨rfl, Or.inl rfl⟩

/-- C12: one call of any mutating public method on any store (so on any reachable store)
keeps every stored procedure in its place with its id, and its estado stays the same or
moves along one of the edges `PENDIENTE → EN_REVISION`, `PENDIENTE → CANCELADO`,
`EN_REVISION → COMPLETADO`; procedures added by the call are `PENDIENTE`.  In particular
`cancelarTramite` on a procedure whose estado is not `PENDIENTE` fails and leaves the
store, and so that estado, unchanged. -/
theorem estado_solo_por_aristas (s t : DatosDemo) (hpaso : Paso s t) :
    (∃ viejos nuevos, t.tramites = viejos ++ nuevos ∧
      List.Forall₂ TransicionLegal s.tramites viejos ∧
      ∀ p ∈ nuevos, p.estado = "PENDIENTE") ∧
    (∀ (ahora : String) (tramiteId : Ident) (q : Tramite),
      s.tramites.find? (fun x => decide (x.id = tramiteId)) = some q →
      q.estado ≠ "PENDIENTE" →
      cancelarTramite s ahora tramiteId =
        (.fallo "Solo se pueden cancelar trámites pendientes", s)) := by
  have hrefl : List.Forall₂ TransicionLegal s.tramites s.tramites :=
    List.forall₂_same.mpr (fun x _ => transicionLegal_refl x)
  constructor
  · cases hpaso with
    | ciudadano ahora datos =>
      exact ⟨s.tramites, [], by rw [(registrarCiudadano_resto s ahora datos).1]; simp, hrefl,
        by simp⟩
    | tramite e datos =>
      rcases registrarTramite_tramites s e datos with ⟨h, _⟩ | ⟨p, m, h, _, hp, _⟩
      · exact ⟨s.tramites, [], by rw [h]; simp, hrefl, by simp⟩
      · exact ⟨s.tramites, [p], by rw [h], hrefl, by simpa using hp⟩
    | cancelar ahora i =>
      exact ⟨_, [], by simp, cancelarTramite_transicion s ahora i, by simp⟩
    | pago e d =>
      exact ⟨_, [], by simp, procesarPago_transicion s e d, by simp⟩
    | deuda i =>
      exact ⟨s.tramites, [], by rw [(pagarDeuda_resto s i).1]; simp, hrefl, by simp⟩
    | plan i n =>
      exact ⟨s.tramites, [], by rw [(crearPlanPagos_resto s i n).1]; simp, hrefl, by simp⟩
  · intro ahora tramiteId q hf hq
    simp [cancelarTramite, hf, hq]

/-- Witness of C12: on the demo store `cancelarTramite(2)` is a call, and `cancelarTramite(1)`
(procedure 1 is `EN_REVISION`) fails and changes nothing. -/
theorem estado_solo_por_aristas_witness :
    cancelarTramite inicializarDatosDemo "2024-06-10T06:00:00.000Z" (.entero 1) =
      (.fallo "Solo se pueden cancelar trámites pendientes", inicializarDatosDemo) :=
  (estado_solo_por_aristas inicializarDatosDemo
    (cancelarTramite inicializarDatosDemo "2024-06-10T06:00:00.000Z" (.entero 2)).2
    (Paso.cancelar _ _ _)).2 "2024-06-10T06:00:00.000Z" (.entero 1) _ rfl (by decide)

/-- C13 (code defect): procedure 3, registered on the demo store, has estado `PENDIENTE`
and a one-entry `historial`.  After an approved payment its `historial` has two entries,
the last with `estado_nuevo` `EN_REVISION`, while its estado is still `PENDIENTE`: no
estado changed, and the last entry does not name the current estado. -/
theorem procesarPago_historial_sin_cambio_de_estado :
    ((registrarTramite inicializarDatosDemo ejemploEntornoTramite ejemploDatosTramite).2.tramites.map
        (fun t => (t.id, t.estado, t.historial.map (fun h => h.map (fun x => x.estado_nuevo)))))
      = [(.entero 1, "EN_REVISION", none), (.entero 2, "PENDIENTE", none),
         (.entero 3, "PENDIENTE", some ["PENDIENTE"])] ∧
    (procesarPago (registrarTramite inicializarDatosDemo ejemploEntornoTramite ejemploDatosTramite).2
        ejemploPagoAprobado
        { metodo := some "tarjeta", monto := some 24500, expedienteId := some (.entero 3) }).1.success
      = true ∧
    ((procesarPago (registrarTramite inicializarDatosDemo ejemploEntornoTramite ejemploDatosTramite).2
        ejemploPagoAprobado
        { metodo := some "tarjeta", monto := some 24500,
          expedienteId := some (.entero 3) }).2.tramites.map
        (fun t => (t.id, t.estado, t.historial.map (fun h => h.map (fun x => x.estado_nuevo)))))
      = [(.entero 1, "EN_REVISION", none), (.entero 2, "PENDIENTE", none),
         (.entero 3, "PENDIENTE", some ["PENDIENTE", "EN_REVISION"])] := by
  decide

/-! ## Registration of citizens -/

/-- C14: `registrarCiudadano` reports success if and only if `dni` is a string of exactly
8 decimal digits and `email` and `telefono` are both present and non-empty; on success
exactly one record, carrying the given data, is appended to the registry and nothing else
changes; on failure the store is unchanged. -/
theorem registrarCiudadano_validacion (s : DatosDemo) (ahora : String) (datos : DatosCiudadano) :
    ((registrarCiudadano s ahora datos).1.success = true ↔
      ((∃ dni : String, datos.dni = some dni ∧ dni.length = 8 ∧
          ∀ c ∈ dni.toList, '0' ≤ c ∧ c ≤ '9') ∧
        (∃ email : String, datos.email = some email ∧ email ≠ "") ∧
        (∃ telefono : String, datos.telefono = some telefono ∧ telefono ≠ ""))) ∧
    ((registrarCiudadano s ahora datos).1.success = true →
      ∃ c, (registrarCiudadano s ahora datos).1 = .exito c "Ciudadano registrado exitosamente" ∧
        (registrarCiudadano s ahora datos).2 = { s with ciudadanos := s.ciudadanos ++ [c] } ∧
        c.dni = datos.dni ∧ c.email = datos.email ∧ c.telefono = datos.telefono) ∧
    ((registrarCiudadano s ahora datos).1.success = false →
      (registrarCiudadano s ahora datos).2 = s) := by
  have hdni : dniValido datos.dni = true ↔
      ∃ dni : String, datos.dni = some dni ∧ dni.length = 8 ∧
        ∀ c ∈ dni.toList, '0' ≤ c ∧ c ≤ '9' := by
    cases h : datos.dni with
    | none => simp [dniValido]
    | some x =>
      simp [dniValido, Char.isDigit, List.all_eq_true]
      intro _
      exact Iff.rfl
  have hpres : ∀ o : Option String, presente o = true ↔ ∃ x : String, o = some x ∧ x ≠ "" := by
    intro o
    cases o with
    | none => simp [presente]
    | some x => simp [presente]
  rw [← hdni, ← hpres, ← hpres]
  unfold registrarCiudadano
  cases h1 : dniValido datos.dni <;> cases h2 : presente datos.email <;>
    cases h3 : presente datos.telefono <;> simp [Resultado.success]

/-- Witness of C14: an accepted record, and a record with a 7-digit `dni` that leaves the
demo store unchanged. -/
theorem registrarCiudadano_validacion_witness :
    (registrarCiudadano inicializarDatosDemo "2024-06-10T06:00:00.000Z"
        { ejemploCiudadanoConId with id := none }).1.success = true ∧
    (registrarCiudadano inicializarDatosDemo "2024-06-10T06:00:00.000Z"
        { ejemploCiudadanoConId with dni := some "1234567" }).2 = inicializarDatosDemo :=
  ⟨by decide,
   (registrarCiudadano_validacion inicializarDatosDemo "2024-06-10T06:00:00.000Z"
      { ejemploCiudadanoConId with dni := some "1234567" }).2.2 (by decide)⟩

/-- C15 (code defect): on the demo store, whose only citizen has id 1, an accepted input
record that carries `id: 1` is stored with id 1 (the spread `...datos` comes after
`id: nuevoId`): the registry then holds the id 1 twice, and the new id is not greater than
the existing one. -/
theorem registrarCiudadano_id_repetido :
    (registrarCiudadano inicializarDatosDemo "2024-06-10T06:00:00.000Z"
        ejemploCiudadanoConId).1.success = true ∧
    (registrarCiudadano inicializarDatosDemo "2024-06-10T06:00:00.000Z"
        ejemploCiudadanoConId).2.ciudadanos.map (fun c => c.id) = [.entero 1, .entero 1] ∧
    inicializarDatosDemo.ciudadanos.map (fun c => c.id) = [.entero 1] := by
  decide

/-! ## Registration of procedures -/

/-- C16 (code defect): for `tipo` `constructor`, present and not in the table,
`montos[tipo]` finds `Object.prototype.constructor`, which is truthy, so the stored
`monto_pendiente` is that inherited member and not 100.00. -/
theorem registrarTramite_monto_heredado :
    (registrarTramite inicializarDatosDemo ejemploEntornoTramite
        { ciudadanoId := some (.entero 1), tipo := some "constructor",
          descripcion := some "Licencia para bodega" }).1.success = true ∧
    ((registrarTramite inicializarDatosDemo ejemploEntornoTramite
        { ciudadanoId := some (.entero 1), tipo := some "constructor",
          descripcion := some "Licencia para bodega" }).2.tramites.map
        (fun t => (t.id, t.tipo, t.monto_pendiente)))
      = [(.entero 1, "LICENCIA_FUNCIONAMIENTO", .centimos 24500),
         (.entero 2, "PERMISO_CONSTRUCCION", .centimos 38000),
         (.entero 3, "constructor", .heredado "constructor")] := by
  decide

/-- On well-formed ids, `Math.max(...ids) + 1` is greater than every id. -/
theorem id_nuevo_mayor (ids : List Ident) (h : IdsBien ids) :
    ∀ x ∈ ids, Ident.menor x (mathMax ids).mas1 := by
  obtain ⟨hne, hent, _⟩ := h
  obtain ⟨m, hm, hcota⟩ := mathMax_cota ids hent hne
  intro x hx
  obtain ⟨z, rfl⟩ := hent x hx
  have := hcota z hx
  rw [hm]
  show z < m + 1
  omega

/-- Apart from the inherited property names, `registrarTramite` does what the
specification says on every reachable store: it succeeds exactly when `tipo` and
`descripcion` are present; on failure the store is unchanged; on success it appends one
procedure with estado `PENDIENTE`, a one-entry `historial` naming `PENDIENTE`, an id
greater than every stored id, and the amount of the table (100.00 for a `tipo` that is
neither in the table nor an inherited property name). -/
theorem registrarTramite_fuera_de_heredadas (s : DatosDemo) (e : EntornoTramite)
    (datos : DatosTramite) (halc : Alcanzable s) :
    ((registrarTramite s e datos).1.success = true ↔
      (presente datos.tipo = true ∧ presente datos.descripcion = true)) ∧
    ((registrarTramite s e datos).1.success = false → (registrarTramite s e datos).2 = s) ∧
    ((registrarTramite s e datos).1.success = true →
      ∃ p mensaje entrada,
        registrarTramite s e datos =
          (.exito p mensaje, { s with tramites := s.tramites ++ [p] }) ∧
        p.estado = "PENDIENTE" ∧ p.historial = some [entrada] ∧
        entrada.estado_nuevo = "PENDIENTE" ∧
        (∀ t ∈ s.tramites, Ident.menor t.id p.id) ∧
        (p.tipo = "LICENCIA_FUNCIONAMIENTO" → p.monto_pendiente = .centimos 24500) ∧
        (p.tipo = "PERMISO_CONSTRUCCION" → p.monto_pendiente = .centimos 38000) ∧
        (p.tipo = "CERTIFICADO_PARAMETROS" → p.monto_pendiente = .centimos 15000) ∧
        (p.tipo ≠ "LICENCIA_FUNCIONAMIENTO" → p.tipo ≠ "PERMISO_CONSTRUCCION" →
          p.tipo ≠ "CERTIFICADO_PARAMETROS" → p.tipo ∉ propiedadesHeredadas →
          p.monto_pendiente = .centimos 10000)) := by
  have hbien := alcanzable_idsBien s halc
  refine ⟨?_, ?_, ?_⟩
  · unfold registrarTramite
    cases h1 : presente datos.tipo <;> cases h2 : presente datos.descripcion <;>
      simp [Resultado.success]
  · intro hf
    rcases registrarTramite_tramites s e datos with ⟨h, _⟩ | ⟨p, m, h, _⟩
    · exact h
    · rw [h] at hf; simp [Resultado.success] at hf
  · intro hok
    rcases registrarTramite_tramites s e datos with ⟨_, hf⟩ | ⟨p, m, h, hid, hest, hmonto, en, hen, hen2⟩
    · rw [hf] at hok; simp at hok
    · refine ⟨p, m, en, h, hest, hen, hen2, ?_, ?_, ?_, ?_, ?_⟩
      · intro t ht
        rw [hid]
        exact id_nuevo_mayor _ hbien t.id (List.mem_map_of_mem (fun x => x.id) ht)
      · intro ht; rw [hmonto, ht]; rfl
      · intro ht; rw [hmonto, ht]; rfl
      · intro ht; rw [hmonto, ht]; rfl
      · intro h1 h2 h3 h4
        rw [hmonto]
        simp [calcularMontoTramite, h1, h2, h3, h4]

/-- C19 (code defect): two registrations in the same year with the same random draw store
two procedures (ids 3 and 4) with the same `numero_expediente` `EXP-2024-550000`. -/
theorem registrarTramite_expediente_repetido :
    (registrarTramite
        (registrarTramite inicializarDatosDemo ejemploEntornoTramite ejemploDatosTramite).2
        ejemploEntornoTramite ejemploDatosTramite).1.success = true ∧
    (registrarTramite
        (registrarTramite inicializarDatosDemo ejemploEntornoTramite ejemploDatosTramite).2
        ejemploEntornoTramite ejemploDatosTramite).2.tramites.map
        (fun t => (t.id, t.numero_expediente))
      = [(.entero 1, "EXP-2024-001234"), (.entero 2, "EXP-2024-001189"),
         (.entero 3, "EXP-2024-550000"), (.entero 4, "EXP-2024-550000")] := by
  decide

/-! ## Listings -/

/-- Counterexample of C17: on the demo store the listing for citizen 1 is procedure 1
(started 2024-01-15) followed by procedure 2 (started 2024-01-10): it is not ordered by
`fecha_inicio`. -/
theorem obtenerTramitesCiudadano_no_ordenado :
    (obtenerTramitesCiudadano inicializarDatosDemo (some (.entero 1))).map
        (fun t => (t.id, t.fecha_inicio))
      = [(.entero 1, "2024-01-15T10:00:00Z"), (.entero 2, "2024-01-10T09:30:00Z")] ∧
    ¬ OrdenadoPorFecha (obtenerTramitesCiudadano inicializarDatosDemo (some (.entero 1))) := by
  refine ⟨by decide, ?_⟩
  intro h
  have h2 : obtenerTramitesCiudadano inicializarDatosDemo (some (.entero 1))
      = inicializarDatosDemo.tramites := by decide
  rw [h2] at h
  simp only [OrdenadoPorFecha, inicializarDatosDemo, List.pairwise_cons] at h
  have h3 := h.1 _ (List.mem_singleton_self _)
  rcases h3 with h3 | ⟨h3, _⟩
  · exact absurd h3 (by unfold fechaAnterior; decide)
  · exact absurd h3 (by decide)

/-- C17 as amended: for every store and citizen id, `obtenerTramitesCiudadano` returns
exactly the stored procedures whose `ciudadano_id` equals that id, each as often as it is
stored, in the order in which they are stored (not sorted); the method only reads the
store. -/
theorem obtenerTramitesCiudadano_en_orden_de_registro (s : DatosDemo)
    (ciudadanoId : Option Ident) :
    (∀ t, t ∈ obtenerTramitesCiudadano s ciudadanoId ↔
      t ∈ s.tramites ∧ t.ciudadano_id = ciudadanoId) ∧
    (obtenerTramitesCiudadano s ciudadanoId).Sublist s.tramites ∧
    (∀ t, t.ciudadano_id = ciudadanoId →
      (obtenerTramitesCiudadano s ciudadanoId).count t = s.tramites.count t) := by
  refine ⟨?_, ?_, ?_⟩
  · intro t
    simp [obtenerTramitesCiudadano, List.mem_filter]
  · exact List.filter_sublist _
  · intro t ht
    unfold obtenerTramitesCiudadano
    rw [List.count_filter]
    simpa using ht

/-- Witness of C17 as amended: the listing of the demo store for citizen 1. -/
theorem obtenerTramitesCiudadano_en_orden_de_registro_witness :
    (obtenerTramitesCiudadano inicializarDatosDemo (some (.entero 1))).Sublist
      inicializarDatosDemo.tramites :=
  (obtenerTramitesCiudadano_en_orden_de_registro inicializarDatosDemo (some (.entero 1))).2.1

/-- With pairwise distinct ids, no other debt of the list has the id of `q`. -/
theorem deudas_nodup_descompone (antes despues : List Deuda) (q : Deuda)
    (hnd : ((antes ++ q :: despues).map (fun d => d.id)).Nodup) :
    ∀ d ∈ antes ++ despues, d.id ≠ q.id := by
  intro t ht hid
  rw [List.map_append, List.map_cons, List.nodup_append] at hnd
  obtain ⟨_, h2, h3⟩ := hnd
  rcases List.mem_append.mp ht with ht | ht
  · exact h3 (List.mem_map_of_mem (fun d => d.id) ht) (by simp [hid])
  · rw [List.nodup_cons] at h2
    exact h2.1 (by rw [← hid]; exact List.mem_map_of_mem (fun d => d.id) ht)

/-- The listing of a store in which the first debt with id `deudaId` has left the estado
`PENDIENTE` is the listing of the store without that debt; with pairwise distinct ids no
debt with that id is listed. -/
theorem obtenerDeudasCiudadano_sin_la_deuda (s : DatosDemo) (ciudadanoId deudaId : Ident)
    (antes despues : List Deuda) (d : Deuda) (estado : String) (hest : estado ≠ "PENDIENTE")
    (hl : s.deudas = antes ++ d :: despues) (hid : d.id = deudaId) :
    obtenerDeudasCiudadano { s with deudas := antes ++ { d with estado := estado } :: despues }
        ciudadanoId =
      obtenerDeudasCiudadano { s with deudas := antes ++ despues } ciudadanoId ∧
    ((s.deudas.map (fun x => x.id)).Nodup →
      ∀ x ∈ obtenerDeudasCiudadano
          { s with deudas := antes ++ { d with estado := estado } :: despues } ciudadanoId,
        x.id ≠ deudaId) := by
  have h1 : obtenerDeudasCiudadano
      { s with deudas := antes ++ { d with estado := estado } :: despues } ciudadanoId =
      obtenerDeudasCiudadano { s with deudas := antes ++ despues } ciudadanoId := by
    simp [obtenerDeudasCiudadano, List.filter_cons, hest]
  refine ⟨h1, ?_⟩
  intro hnd x hx
  rw [h1] at hx
  have hx2 : x ∈ antes ++ despues := by
    simp only [obtenerDeudasCiudadano] at hx
    exact (List.mem_filter.mp hx).1
  rw [hl] at hnd
  rw [← hid]
  exact deudas_nodup_descompone antes despues d hnd x hx2

/-- C18: for every store and citizen id, `obtenerDeudasCiudadano` returns exactly the stored
debts with that `ciudadano_id` and estado `PENDIENTE`, each as often as it is stored and in
stored order; the method only reads the store.  After a successful `pagarDeuda` or
`crearPlanPagos` on a debt id, the listing is the one of the store without the debt the
call acted on: that debt no longer appears, and where debt ids are pairwise distinct no
debt with that id is listed. -/
theorem obtenerDeudasCiudadano_pendientes (s : DatosDemo) (ciudadanoId : Ident) :
    (∀ d, d ∈ obtenerDeudasCiudadano s ciudadanoId ↔
      d ∈ s.deudas ∧ d.ciudadano_id = ciudadanoId ∧ d.estado = "PENDIENTE") ∧
    (obtenerDeudasCiudadano s ciudadanoId).Sublist s.deudas ∧
    (∀ d, d.ciudadano_id = ciudadanoId → d.estado = "PENDIENTE" →
      (obtenerDeudasCiudadano s ciudadanoId).count d = s.deudas.count d) ∧
    (∀ deudaId, (pagarDeuda s deudaId).1.success = true →
      ∃ antes d despues, s.deudas = antes ++ d :: despues ∧ d.id = deudaId ∧
        (∀ x ∈ antes, x.id ≠ deudaId) ∧
        obtenerDeudasCiudadano (pagarDeuda s deudaId).2 ciudadanoId =
          obtenerDeudasCiudadano { s with deudas := antes ++ despues } ciudadanoId ∧
        ((s.deudas.map (fun x => x.id)).Nodup →
          ∀ x ∈ obtenerDeudasCiudadano (pagarDeuda s deudaId).2 ciudadanoId,
            x.id ≠ deudaId)) ∧
    (∀ deudaId (n : Int), (crearPlanPagos s deudaId n).1.success = true →
      ∃ antes d despues, s.deudas = antes ++ d :: despues ∧ d.id = deudaId ∧
        (∀ x ∈ antes, x.id ≠ deudaId) ∧
        obtenerDeudasCiudadano (crearPlanPagos s deudaId n).2 ciudadanoId =
          obtenerDeudasCiudadano { s with deudas := antes ++ despues } ciudadanoId ∧
        ((s.deudas.map (fun x => x.id)).Nodup →
          ∀ x ∈ obtenerDeudasCiudadano (crearPlanPagos s deudaId n).2 ciudadanoId,
            x.id ≠ deudaId)) := by
  refine ⟨?_, ?_, ?_, ?_, ?_⟩
  · intro d
    simp [obtenerDeudasCiudadano, List.mem_filter]
  · exact List.filter_sublist _
  · intro d h1 h2
    unfold obtenerDeudasCiudadano
    rw [List.count_filter]
    simp [h1, h2]
  · intro deudaId hok
    cases hf : s.deudas.find? (fun d => decide (d.id = deudaId)) with
    | none => simp [pagarDeuda, hf, Resultado.success] at hok
    | some d =>
      obtain ⟨antes, despues, hl, hant, hd⟩ := find_descompone _ _ _ hf
      have hid : d.id = deudaId := by simpa using hd
      have hs : (pagarDeuda s deudaId).2 =
          { s with deudas := antes ++ { d with estado := "PAGADO" } :: despues } := by
        simp only [pagarDeuda, hf]
        rw [hl, modificarPrimero_descompone _ _ _ _ _ hant hd]
      obtain ⟨h1, h2⟩ := obtenerDeudasCiudadano_sin_la_deuda s ciudadanoId deudaId antes
        despues d "PAGADO" (by decide) hl hid
      rw [hs]
      exact ⟨antes, d, despues, hl, hid, fun x hx => by simpa using hant x hx, h1, h2⟩
  · intro deudaId n hok
    cases hf : s.deudas.find? (fun d => decide (d.id = deudaId)) with
    | none => simp [crearPlanPagos, hf, Resultado.success] at hok
    | some d =>
      obtain ⟨antes, despues, hl, hant, hd⟩ := find_descompone _ _ _ hf
      have hid : d.id = deudaId := by simpa using hd
      by_cases hn : n < 3 ∨ n > 12
      · simp [crearPlanPagos, hf, hn, Resultado.success] at hok
      · have hs : (crearPlanPagos s deudaId n).2 =
            { s with deudas := antes ++ { d with estado := "FRACCIONADO" } :: despues } := by
          simp only [crearPlanPagos, hf, hn, if_false]
          rw [hl, modificarPrimero_descompone _ _ _ _ _ hant hd]
        obtain ⟨h1, h2⟩ := obtenerDeudasCiudadano_sin_la_deuda s ciudadanoId deudaId antes
          despues d "FRACCIONADO" (by decide) hl hid
        rw [hs]
        exact ⟨antes, d, despues, hl, hid, fun x hx => by simpa using hant x hx, h1, h2⟩

/-- Witness of C18: after `pagarDeuda(1)` on the demo store, debt 1 is gone from the
listing of citizen 1. -/
theorem obtenerDeudasCiudadano_pendientes_witness :
    ∃ antes d despues, inicializarDatosDemo.deudas = antes ++ d :: despues ∧
      d.id = .entero 1 ∧ (∀ x ∈ antes, x.id ≠ .entero 1) ∧
      obtenerDeudasCiudadano (pagarDeuda inicializarDatosDemo (.entero 1)).2 (.entero 1) =
        obtenerDeudasCiudadano { inicializarDatosDemo with deudas := antes ++ despues }
          (.entero 1) ∧
      ((inicializarDatosDemo.deudas.map (fun x => x.id)).Nodup →
        ∀ x ∈ obtenerDeudasCiudadano (pagarDeuda inicializarDatosDemo (.entero 1)).2 (.entero 1),
          x.id ≠ .entero 1) :=
  (obtenerDeudasCiudadano_pendientes inicializarDatosDemo (.entero 1)).2.2.2.1 (.entero 1)
    (by decide)

/-! ## Settlement by payment -/

/-- C20: for every store and every procedure `q` with a `historial` that the lookup of
`expedienteId` finds, every method present and every amount greater than zero (whatever
its relation to `monto_pendiente`), an approved payment succeeds, sets `monto_pendiente`
of `q` to exactly 0, leaves its estado as it was (whatever it was), leaves every other
procedure unchanged and modifies no debt. -/
theorem procesarPago_salda_sin_mirar_monto_ni_estado (s : DatosDemo) (e : EntornoPago)
    (d : DatosPago) (m : Int) (q : Tramite) (h : List EntradaHistorial)
    (hq : s.tramites.find? (coincideExpediente d.expedienteId) = some q)
    (hh : q.historial = some h)
    (hmetodo : presente d.metodo = true) (hmonto : d.monto = some m) (hpos : 0 < m)
    (haprueba : pasarelaAprueba e.aleatorioPasarela = true) :
    ∃ antes despues q2,
      s.tramites = antes ++ q :: despues ∧
      (∀ t ∈ antes, coincideExpediente d.expedienteId t = false) ∧
      (procesarPago s e d).1.success = true ∧
      (procesarPago s e d).2 = { s with tramites := antes ++ q2 :: despues } ∧
      q2.monto_pendiente = .centimos 0 ∧ q2.estado = q.estado ∧ q2.id = q.id ∧
      (procesarPago s e d).2.deudas = s.deudas := by
  obtain ⟨antes, despues, hl, hant, hx⟩ := find_descompone _ _ _ hq
  have hv : montoNoPositivo d.monto = false := by
    simp [hmonto, montoNoPositivo]; omega
  refine ⟨antes, despues,
    { q with
      monto_pendiente := .centimos 0
      historial := some (h ++ [
        { estado_nuevo := "EN_REVISION"
          fecha := e.fechaHistorial
          razon := "Pago confirmado - En revisión" }]) }, hl, hant, ?_⟩
  have hpay : procesarPago s e d =
      (.exito
        { comprobante := generarComprobante e.ahoraMs e.aleatorioComprobante
          fecha := e.fechaRespuesta
          monto := d.monto } "Pago procesado exitosamente",
        { s with tramites := antes ++
            { q with
              monto_pendiente := .centimos 0
              historial := some (h ++ [
                { estado_nuevo := "EN_REVISION"
                  fecha := e.fechaHistorial
                  razon := "Pago confirmado - En revisión" }]) } :: despues }) := by
    unfold procesarPago
    simp only [hmetodo, hv, haprueba, Bool.not_true, Bool.or_self, Bool.false_eq_true, if_false]
    rw [hq]
    simp only [hh]
    rw [hl, modificarPrimero_descompone _ _ _ _ _ hant hx]
    rw [modificarPrimero_descompone _ _ _ _ _ hant (by simpa [coincideExpediente] using hx)]
  rw [hpay]
  exact ⟨rfl, rfl, rfl, rfl, rfl, rfl⟩

/-- Witness of C20: procedure 3, registered on the demo store and then cancelled, with
245.00 pending, is settled by an approved payment of 0.01 and stays `CANCELADO`. -/
theorem procesarPago_salda_sin_mirar_monto_ni_estado_witness :
    ∃ antes despues q2,
      (cancelarTramite
          (registrarTramite inicializarDatosDemo ejemploEntornoTramite ejemploDatosTramite).2
          "2024-06-10T06:10:00.000Z" (.entero 3)).2.tramites = antes ++ q2 :: despues ∧
      q2.id = .entero 3 ∧ q2.estado = "CANCELADO" ∧ q2.monto_pendiente = .centimos 24500 ∧
      (procesarPago
          (cancelarTramite
            (registrarTramite inicializarDatosDemo ejemploEntornoTramite ejemploDatosTramite).2
            "2024-06-10T06:10:00.000Z" (.entero 3)).2
          ejemploPagoAprobado
          { metodo := some "efectivo", monto := some 1, expedienteId := some (.entero 3) }).1.success
        = true := by
  obtain ⟨antes, despues, q2, hl, _, hok, _⟩ :=
    procesarPago_salda_sin_mirar_monto_ni_estado
      (cancelarTramite
        (registrarTramite inicializarDatosDemo ejemploEntornoTramite ejemploDatosTramite).2
        "2024-06-10T06:10:00.000Z" (.entero 3)).2
      ejemploPagoAprobado
      { metodo := some "efectivo", monto := some 1, expedienteId := some (.entero 3) } 1 _ _
      rfl rfl (by decide) rfl (by decide) (by decide)
  exact ⟨antes, despues, _, hl, rfl, rfl, rfl, hok⟩

end ModeloMunicipal
